import Mathlib

/-!
Verification of the order-coordination and strategy layer of the
Perp-Dex-Trading-Bot repository, against its natural-language specification.

The TypeScript sources are shallowly embedded: JavaScript numbers that carry
prices, quantities and P&L values are modelled as rationals (`ℚ`); the
special values `NaN`/`±Infinity`/`null`/`undefined` are modelled explicitly
(as `JNum`/`JVal`) only where the source code branches on them
(`isOrderPriceAllowedByMark`); stateful coordinator code is modelled by
explicit state passing over `CoordState`; fallible exchange calls take their
outcome (`Except ExError _`) as an explicit argument.
-/

namespace PerpBot

/-- Order side, embedding the TypeScript union type `"BUY" | "SELL"`. -/
inductive Side where
  | BUY
  | SELL
deriving DecidableEq, BEq, Repr

/-- A JavaScript number: either a finite value (modelled as a rational) or one
of the non-finite values `NaN`, `+Infinity`, `-Infinity`. -/
inductive JNum where
  | fin (q : ℚ)
  | nan
  | pinf
  | ninf
deriving DecidableEq, Repr

/-- A JavaScript value of TypeScript type `number | null | undefined`. -/
inductive JVal where
  | jnum (x : JNum)
  | jnull
  | jundef
deriving DecidableEq, Repr

/-- JavaScript `Number(v)` coercion on `number | null | undefined`:
`Number(null) = 0`, `Number(undefined) = NaN`, numbers unchanged. -/
def JVal.toNum : JVal → JNum
  | .jnum x => x
  | .jnull => .fin 0
  | .jundef => .nan

/-- JavaScript `Number.isFinite`. -/
def JNum.isFinite : JNum → Bool
  | .fin _ => true
  | _ => false

/-- The flat-position epsilon `1e-5` used throughout the sources. -/
def eps : ℚ := 1 / 100000

/-- `src/utils/strategy.ts` `PositionSnapshot`.  `unrealizedProfit` is built by
`getPosition` via `Number(..) || 0`, hence always finite; it is modelled as a
rational directly.  `markPrice` is `number | null` (null when absent or not a
positive finite number). -/
structure PositionSnapshot where
  positionAmt : ℚ
  entryPrice : ℚ
  unrealizedProfit : ℚ
  markPrice : Option ℚ
deriving DecidableEq, Repr

/-- An exchange order as mirrored locally (`AsterOrder` in
`src/exchanges/types`), restricted to the fields the core reads.  Numeric
fields reported by the exchange (`price`, `origQty`, `stopPrice`) are modelled
as rationals; `activatePrice` is optional because only trailing-stop orders
carry it; `time`/`updateTime` are 0 when absent, matching the sources'
`updateTime || time || 0` defaulting. -/
structure AsterOrder where
  orderId : ℕ
  symbol : String
  type : String
  side : Side
  status : String
  price : ℚ
  origQty : ℚ
  stopPrice : ℚ
  activatePrice : Option ℚ
  reduceOnly : Bool
  time : ℕ
  updateTime : ℕ
deriving DecidableEq, Repr

/-- A maker-engine desired order (`DesiredOrder` in
`src/core/offset-maker-engine.ts`). -/
structure DesiredOrder where
  side : Side
  price : ℚ
  amount : ℚ
  reduceOnly : Bool
deriving DecidableEq, Repr

/-- `src/utils/risk.ts` `shouldStopLoss(position, bestBid, bestAsk, lossLimit)`:
flat positions (|amt| < 1e-5) never stop out; otherwise the derived P&L
(from entry price and the closing-side best price) below `-lossLimit`, or the
snapshot unrealized P&L below `-lossLimit` while the derived P&L is ≤ 0,
triggers the stop.  The source's `Number.isFinite(position.unrealizedProfit)`
test is always true in the rational embedding, so `unrealized` is never null. -/
def shouldStopLoss (position : PositionSnapshot) (bestBid bestAsk lossLimit : ℚ) : Bool :=
  let absPosition := |position.positionAmt|
  if absPosition < eps then false
  else
    let pnl :=
      if 0 < position.positionAmt then (bestBid - position.entryPrice) * absPosition
      else (position.entryPrice - bestAsk) * absPosition
    let derivedLoss := decide (pnl < -lossLimit)
    let snapshotLoss := decide (position.unrealizedProfit < -lossLimit ∧ pnl ≤ 0)
    derivedLoss || snapshotLoss

/-- `src/utils/strategy.ts` `isOrderPriceAllowedByMark`: if either coerced
price is non-finite, or the mark is not strictly positive, the check passes;
otherwise a BUY must not exceed `mark * (1 + max 0 maxPct)` and a SELL must
not fall below `mark * (1 - max 0 maxPct)` (the source branches on
`side === "BUY"`, modelled by the match on `side`). -/
def isOrderPriceAllowedByMark (side : Side) (orderPrice markPrice : JVal)
    (maxPct : ℚ) : Bool :=
  match orderPrice.toNum, markPrice.toNum with
  | JNum.fin price, JNum.fin mark =>
      if mark ≤ 0 then true
      else
        match side with
        | Side.BUY => decide (price ≤ mark * (1 + max 0 maxPct))
        | Side.SELL => decide (price ≥ mark * (1 - max 0 maxPct))
  | _, _ => true

/-- The derived-from-entry P&L that `shouldStopLoss` computes internally,
exposed for specification purposes. -/
def riskPnl (position : PositionSnapshot) (bestBid bestAsk : ℚ) : ℚ :=
  if 0 < position.positionAmt then (bestBid - position.entryPrice) * |position.positionAmt|
  else (position.entryPrice - bestAsk) * |position.positionAmt|

/-- The shared lock/timer/pending-id triple of `src/core/order-coordinator.ts`
(`OrderLockMap`, `OrderTimerMap`, `OrderPendingMap`), keyed by order type.
A timer entry holds the armed timeout (ms); pending entries hold order ids. -/
structure CoordState where
  locks : String → Bool
  timers : String → Option ℕ
  pending : String → Option ℕ

/-- Pointwise map update for the string-keyed coordinator maps. -/
def upd {α : Type} (f : String → α) (k : String) (v : α) : String → α :=
  fun x => if x = k then v else f x

/-- `isOperating(locks, type)`. -/
def isOperating (s : CoordState) (type : String) : Bool :=
  s.locks type

/-- `lockOperating`: sets the lock and (re)arms the auto-unlock timer with the
given timeout (the source's default argument is 3000 ms); the pending id is
untouched. -/
def lockOperating (s : CoordState) (type : String) (timeout : ℕ) : CoordState :=
  ⟨upd s.locks type true, upd s.timers type (some timeout), s.pending⟩

/-- `unlockOperating`: clears the lock and the pending id and cancels the
timer. -/
def unlockOperating (s : CoordState) (type : String) : CoordState :=
  ⟨upd s.locks type false, upd s.timers type none, upd s.pending type none⟩

/-- The body of the timeout callback armed by `lockOperating`: when the timer
fires it clears the lock and the pending id (and logs a warning); the timer
slot itself is not nulled by the callback. -/
def timerFire (s : CoordState) (type : String) : CoordState :=
  ⟨upd s.locks type false, s.timers, upd s.pending type none⟩

/-- Release condition of the trend engine's `synchronizeLocks`
(`src/core/trend-engine.ts`): the pending order is absent from the pushed
list, or its status is truthy and differs from `"NEW"`. -/
def trendReleaseCond (pendingId : ℕ) (orders : List AsterOrder) : Bool :=
  match orders.find? (fun o => o.orderId == pendingId) with
  | none => true
  | some o => o.status != "" && o.status != "NEW"

/-- Release condition of the offset maker's `syncLocksWithOrders`
(`src/core/offset-maker-engine.ts`): the pending order is absent, or its
status is truthy and differs from both `"NEW"` and `"PARTIALLY_FILLED"`. -/
def makerReleaseCond (pendingId : ℕ) (orders : List AsterOrder) : Bool :=
  match orders.find? (fun o => o.orderId == pendingId) with
  | none => true
  | some o => o.status != "" && o.status != "NEW" && o.status != "PARTIALLY_FILLED"

/-- One iteration of the synchronization pass over a single order type: if a
pending id is recorded and the engine-specific release condition holds, the
type is unlocked, otherwise the state is untouched. -/
def syncStep (cond : ℕ → Bool) (st : CoordState) (type : String) : CoordState :=
  match st.pending type with
  | none => st
  | some pid => if cond pid then unlockOperating st type else st

/-- The synchronization pass folded over the keys of the pending map
(`Object.keys(this.pending).forEach`). -/
def syncPass (cond : ℕ → Bool) (s : CoordState) (keys : List String) : CoordState :=
  keys.foldl (syncStep cond) s

/-- Trend engine `synchronizeLocks(orders)`, as a pure state transformer over
the keys of the pending map. -/
def synchronizeLocks (s : CoordState) (keys : List String) (orders : List AsterOrder) :
    CoordState :=
  syncPass (fun pid => trendReleaseCond pid orders) s keys

/-- Offset maker `syncLocksWithOrders(orders)`. -/
def syncLocksWithOrders (s : CoordState) (keys : List String) (orders : List AsterOrder) :
    CoordState :=
  syncPass (fun pid => makerReleaseCond pid orders) s keys

/-- The lock/timer/pending slots of one order type, bundled for stating
frame lemmas about the synchronization pass. -/
def stateAt (st : CoordState) (type : String) : Bool × Option ℕ × Option ℕ :=
  (st.locks type, st.timers type, st.pending type)

/-- `src/core/offset-maker-engine.ts` `handleImbalanceExit` trigger: a non-flat
position is emergency-closed iff the held side's 10-level depth sum is zero or
strictly outnumbered more than 6:1 by the opposing sum (`buySum * 6 < sellSum`
for longs, `sellSum * 6 < buySum` for shorts). -/
def imbalanceExitRequired (position : PositionSnapshot) (buySum sellSum : ℚ) : Bool :=
  let absPosition := |position.positionAmt|
  if absPosition < eps then false
  else
    let longExitRequired :=
      decide (0 < position.positionAmt ∧ (buySum = 0 ∨ buySum * 6 < sellSum))
    let shortExitRequired :=
      decide (position.positionAmt < 0 ∧ (sellSum = 0 ∨ sellSum * 6 < buySum))
    longExitRequired || shortExitRequired

/-- `src/utils/errors.ts` `isUnknownOrderError`, modelled abstractly: the
string test (message contains "Unknown order" or code -2011) is collapsed
into the `unknownOrder` constructor of the error type. -/
inductive ExError where
  | unknownOrder
  | other (msg : String)
deriving DecidableEq, Repr

/-- Classifier for the benign "order already gone" failure. -/
def isUnknownOrderError : ExError → Bool
  | .unknownOrder => true
  | .other _ => false

/-- Sort key used by `deduplicateOrders`: `updateTime || time || 0`
(JavaScript falsy defaulting; absent timestamps are modelled as 0). -/
def dedupSortKey (o : AsterOrder) : ℕ :=
  if o.updateTime ≠ 0 then o.updateTime else o.time

/-- Stable insertion for most-recent-first ordering.  `Array.sort` with the
comparator `(a, b) => (key b) - (key a)` is a stable sort by the key,
descending, which any stable sort realizes identically; insertion keeps an
element before later-listed elements with the same key. -/
def insertByKeyDesc (a : AsterOrder) : List AsterOrder → List AsterOrder
  | [] => [a]
  | b :: bs =>
      if dedupSortKey b ≤ dedupSortKey a then a :: b :: bs
      else b :: insertByKeyDesc a bs

/-- Stable most-recent-first sort of `deduplicateOrders`. -/
def sortByKeyDesc (l : List AsterOrder) : List AsterOrder :=
  l.foldr insertByKeyDesc []

/-- The `openOrders.filter((o) => o.type === type && o.side === side)` step of
`deduplicateOrders`. -/
def sameTypeOrders (openOrders : List AsterOrder) (type : String) (side : Side) :
    List AsterOrder :=
  openOrders.filter (fun o => o.type == type && o.side == side)

/-- The cancellation plan of `deduplicateOrders`: with at most one same
(type, side) order nothing is cancelled; otherwise all but the most recently
updated order (`sort` most-recent-first, `slice(1)`) are cancelled. -/
def deduplicatePlan (openOrders : List AsterOrder) (type : String) (side : Side) : List ℕ :=
  let same := sameTypeOrders openOrders type side
  if same.length ≤ 1 then []
  else ((sortByKeyDesc same).drop 1).map (fun o => o.orderId)

/-- Observable outcome of one `deduplicateOrders` call: which ids were
cancelled and whether an error escaped to the caller. -/
structure DedupRun where
  cancelled : List ℕ
  raised : Option ExError
deriving DecidableEq, Repr

/-- `deduplicateOrders`, with the outcome of the `adapter.cancelOrders` call
passed explicitly.  Both catch branches (unknown-order, logged as benign, and
any other cancel failure, logged as an error) swallow the exception, so no
error is ever re-raised from deduplication. -/
def deduplicateOrdersRun (openOrders : List AsterOrder) (type : String) (side : Side)
    (cancelOutcome : Except ExError Unit) : DedupRun :=
  let ids := deduplicatePlan openOrders type side
  if ids.isEmpty then ⟨[], none⟩
  else
    match cancelOutcome with
    | .ok _ => ⟨ids, none⟩
    | .error _ => ⟨[], none⟩

/-- The lock/timer/pending effect of one `deduplicateOrders` call: when it
cancels (plan non-empty) it locks the type, cancels, and in `finally` unlocks
it; otherwise it returns early leaving the state untouched. -/
def deduplicateOrdersState (s : CoordState) (openOrders : List AsterOrder) (type : String)
    (side : Side) : CoordState :=
  if (deduplicatePlan openOrders type side).isEmpty then s
  else unlockOperating (lockOperating s type 3000) type

/-- Modelled from the spec: `roundDownToTick` of `src/utils/math.ts` (absent
from the sources) rounds a price to tick granularity "truncating toward zero
(never rounds up)"; prices are positive, so this is the floor to a multiple
of the tick. -/
def roundDownToTick (price tick : ℚ) : ℚ :=
  ⌊price / tick⌋ * tick

/-- Modelled from the spec: `roundQtyDownToStep` of `src/utils/math.ts`
(absent from the sources) rounds a quantity down to step granularity,
truncating toward zero. -/
def roundQtyDownToStep (qty step : ℚ) : ℚ :=
  ⌊qty / step⌋ * step

/-- `OrderGuardOptions` of `src/core/order-coordinator.ts`.  The optional
numeric fields are `JVal`s (possibly null/undefined); `maxPct == null`
(null or undefined) is modelled by `Option`. -/
structure OrderGuardOptions where
  markPrice : JVal
  expectedPrice : JVal
  maxPct : Option ℚ

/-- `enforceMarkPriceGuard`: passes when no guard or no `maxPct` is
configured, otherwise defers to `isOrderPriceAllowedByMark` (a failed check
only logs and reports false). -/
def enforceMarkPriceGuard (side : Side) (toCheckPrice : JVal)
    (guard : Option OrderGuardOptions) : Bool :=
  match guard with
  | none => true
  | some g =>
      match g.maxPct with
      | none => true
      | some pct => isOrderPriceAllowedByMark side toCheckPrice g.markPrice pct

/-- JavaScript `v ?? null` on an optional number (undefined collapses to
null). -/
def coalesceNull : JVal → JVal
  | .jundef => .jnull
  | v => v

/-- The `guard?.expectedPrice ?? null` expression of the market-order paths. -/
def guardExpectedPrice (guard : Option OrderGuardOptions) : JVal :=
  match guard with
  | some g => coalesceNull g.expectedPrice
  | none => JVal.jnull

/-- `CreateOrderParams` of `src/exchanges/types`, restricted to the fields
the coordinator fills. -/
structure CreateOrderParams where
  symbol : String
  side : Side
  type : String
  quantity : ℚ
  price : Option ℚ
  stopPrice : Option ℚ
  activationPrice : Option ℚ
  callbackRate : Option ℚ
  reduceOnly : Bool
  closePosition : Bool
  timeInForce : Option String
deriving DecidableEq, Repr

/-- Observable result of one coordinator submit operation. -/
inductive SubmitResult where
  | skippedLocked
  | skippedGuard
  | skippedStopGate
  | placed (params : CreateOrderParams) (order : AsterOrder)
  | benign
  | raised (e : ExError)
deriving DecidableEq, Repr

/-- The shared tail of every coordinator submit operation:
`deduplicateOrders`, then `lockOperating`, then `adapter.createOrder`; on
success the new order id is recorded in `pending[type]` (the lock stays
held); on failure the type is unlocked and the unknown-order error is
swallowed as benign while any other error is re-raised. -/
def submitWith (s : CoordState) (openOrders : List AsterOrder) (type : String) (side : Side)
    (params : CreateOrderParams) (create : Except ExError AsterOrder) :
    CoordState × SubmitResult :=
  let s1 := lockOperating (deduplicateOrdersState s openOrders type side) type 3000
  match create with
  | .ok o =>
      (⟨s1.locks, s1.timers, upd s1.pending type (some o.orderId)⟩,
        SubmitResult.placed params o)
  | .error e =>
      (unlockOperating s1 type,
        if isUnknownOrderError e then SubmitResult.benign else SubmitResult.raised e)

/-- `placeOrder` (limit orders, type `"LIMIT"`): refuse when locked, apply the
mark guard to the limit price, round price/quantity down, then submit. -/
def placeOrder (s : CoordState) (symbol : String) (openOrders : List AsterOrder) (side : Side)
    (price amount : ℚ) (reduceOnly : Bool) (guard : Option OrderGuardOptions)
    (priceTick qtyStep : ℚ) (create : Except ExError AsterOrder) :
    CoordState × SubmitResult :=
  if isOperating s "LIMIT" then (s, SubmitResult.skippedLocked)
  else if ¬ enforceMarkPriceGuard side (JVal.jnum (JNum.fin price)) guard then
    (s, SubmitResult.skippedGuard)
  else
    submitWith s openOrders "LIMIT" side
      ⟨symbol, side, "LIMIT", roundQtyDownToStep amount qtyStep,
        some (roundDownToTick price priceTick), none, none, none, reduceOnly, false,
        some "GTX"⟩
      create

/-- `placeMarketOrder` (type `"MARKET"`): refuse when locked, apply the mark
guard to `guard?.expectedPrice ?? null`, round the quantity down, submit. -/
def placeMarketOrder (s : CoordState) (symbol : String) (openOrders : List AsterOrder)
    (side : Side) (amount : ℚ) (reduceOnly : Bool) (guard : Option OrderGuardOptions)
    (qtyStep : ℚ) (create : Except ExError AsterOrder) : CoordState × SubmitResult :=
  if isOperating s "MARKET" then (s, SubmitResult.skippedLocked)
  else if ¬ enforceMarkPriceGuard side (guardExpectedPrice guard) guard then
    (s, SubmitResult.skippedGuard)
  else
    submitWith s openOrders "MARKET" side
      ⟨symbol, side, "MARKET", roundQtyDownToStep amount qtyStep, none, none, none, none,
        reduceOnly, false, none⟩
      create

/-- The stop-price sanity check of `placeStopLossOrder`: with a known last
price, a SELL stop at or above it, or a BUY stop at or below it, would
trigger immediately and is refused. -/
def stopPriceImmediatelyTriggers (side : Side) (stopPrice : ℚ) (lastPrice : Option ℚ) :
    Bool :=
  match lastPrice with
  | none => false
  | some lp =>
      if side = Side.SELL ∧ stopPrice ≥ lp then true
      else if side = Side.BUY ∧ stopPrice ≤ lp then true
      else false

/-- `placeStopLossOrder` (type `"STOP_MARKET"`): refuse when locked, apply the
mark guard to the stop price, refuse stops that would trigger immediately
against the last price, round down, submit close-position GTC. -/
def placeStopLossOrder (s : CoordState) (symbol : String) (openOrders : List AsterOrder)
    (side : Side) (stopPrice quantity : ℚ) (lastPrice : Option ℚ)
    (guard : Option OrderGuardOptions) (priceTick qtyStep : ℚ)
    (create : Except ExError AsterOrder) : CoordState × SubmitResult :=
  if isOperating s "STOP_MARKET" then (s, SubmitResult.skippedLocked)
  else if ¬ enforceMarkPriceGuard side (JVal.jnum (JNum.fin stopPrice)) guard then
    (s, SubmitResult.skippedGuard)
  else if stopPriceImmediatelyTriggers side stopPrice lastPrice then
    (s, SubmitResult.skippedStopGate)
  else
    submitWith s openOrders "STOP_MARKET" side
      ⟨symbol, side, "STOP_MARKET", roundQtyDownToStep quantity qtyStep, none,
        some (roundDownToTick stopPrice priceTick), none, none, false, true, some "GTC"⟩
      create

/-- `placeTrailingStopOrder` (type `"TRAILING_STOP_MARKET"`): refuse when
locked, apply the mark guard to the activation price, round down, submit
reduce-only GTC with the callback rate. -/
def placeTrailingStopOrder (s : CoordState) (symbol : String) (openOrders : List AsterOrder)
    (side : Side) (activationPrice quantity callbackRate : ℚ)
    (guard : Option OrderGuardOptions) (priceTick qtyStep : ℚ)
    (create : Except ExError AsterOrder) : CoordState × SubmitResult :=
  if isOperating s "TRAILING_STOP_MARKET" then (s, SubmitResult.skippedLocked)
  else if ¬ enforceMarkPriceGuard side (JVal.jnum (JNum.fin activationPrice)) guard then
    (s, SubmitResult.skippedGuard)
  else
    submitWith s openOrders "TRAILING_STOP_MARKET" side
      ⟨symbol, side, "TRAILING_STOP_MARKET", roundQtyDownToStep quantity qtyStep, none, none,
        some (roundDownToTick activationPrice priceTick), some callbackRate, true, false,
        some "GTC"⟩
      create

/-- `marketClose` (type `"MARKET"`, always reduce-only): refuse when locked,
apply the mark guard to `guard?.expectedPrice ?? null`, round the quantity
down, submit. -/
def marketClose (s : CoordState) (symbol : String) (openOrders : List AsterOrder)
    (side : Side) (quantity : ℚ) (guard : Option OrderGuardOptions) (qtyStep : ℚ)
    (create : Except ExError AsterOrder) : CoordState × SubmitResult :=
  if isOperating s "MARKET" then (s, SubmitResult.skippedLocked)
  else if ¬ enforceMarkPriceGuard side (guardExpectedPrice guard) guard then
    (s, SubmitResult.skippedGuard)
  else
    submitWith s openOrders "MARKET" side
      ⟨symbol, side, "MARKET", roundQtyDownToStep quantity qtyStep, none, none, none, none,
        true, false, none⟩
      create

/-- Modelled from the spec: the matching predicate of `makeOrderPlan`
(`src/core/lib/order-plan.ts` is absent from the sources).  Per §4.3, a
desired order matches an existing order iff it has the same side and
reduceOnly flag, a price within `tolerance` of the existing order's price,
and a matching quantity. -/
def matchesDesired (tolerance : ℚ) (o : AsterOrder) (d : DesiredOrder) : Bool :=
  d.side == o.side && d.reduceOnly == o.reduceOnly &&
    decide (|o.price - d.price| ≤ tolerance) && d.amount == o.origQty

/-- Removes the first desired order matching `o` (one-to-one consumption of a
desired order by a kept existing order). -/
def removeFirstMatch (tolerance : ℚ) (o : AsterOrder) :
    List DesiredOrder → List DesiredOrder
  | [] => []
  | d :: ds =>
      if matchesDesired tolerance o d then ds else d :: removeFirstMatch tolerance o ds

/-- Modelled from the spec: `makeOrderPlan` of `src/core/lib/order-plan.ts`
(absent from the sources).  Per §4.3 it is a pure function from the current
open orders and the desired set to a `{toCancel, toPlace}` diff: an existing
order is kept iff some desired order matches it (same side and reduceOnly,
price within tolerance, matching quantity), every other existing order is
scheduled for cancellation, and every desired order not consumed one-to-one
by a kept existing order is scheduled for placement. -/
def makeOrderPlan (openOrders : List AsterOrder) (desired : List DesiredOrder)
    (tolerance : ℚ) : List AsterOrder × List DesiredOrder :=
  let toCancel := openOrders.filter
    (fun o => ! desired.any (fun d => matchesDesired tolerance o d))
  let kept := openOrders.filter
    (fun o => desired.any (fun d => matchesDesired tolerance o d))
  let toPlace := kept.foldl (fun rem o => removeFirstMatch tolerance o rem) desired
  (toCancel, toPlace)

/-- Position direction, embedding the TypeScript union `"long" | "short"`. -/
inductive Direction where
  | long
  | short
deriving DecidableEq, Repr

/-- `src/utils/strategy.ts` `calcStopLossPrice`. -/
def calcStopLossPrice (entryPrice qty : ℚ) (side : Direction) (loss : ℚ) : ℚ :=
  match side with
  | .long => entryPrice - loss / qty
  | .short => entryPrice + loss / |qty|

/-- `src/utils/strategy.ts` `calcTrailingActivationPrice`. -/
def calcTrailingActivationPrice (entryPrice qty : ℚ) (side : Direction) (profit : ℚ) : ℚ :=
  match side with
  | .long => entryPrice + profit / qty
  | .short => entryPrice - profit / |qty|

/-- The trend engine's configuration fields read by position management. -/
structure TradingConfig where
  priceTick : ℚ
  lossLimit : ℚ
  trailingProfit : ℚ
  profitLockOffsetUsd : ℚ
  profitLockTriggerUsd : ℚ
deriving DecidableEq, Repr

/-- `position.positionAmt > 0 ? "long" : "short"` of
`handlePositionManagement` (only reached for non-flat positions). -/
def trendDirection (position : PositionSnapshot) : Direction :=
  if 0 < position.positionAmt then Direction.long else Direction.short

/-- The protective stop side: SELL protects a long, BUY protects a short. -/
def trendStopSide (position : PositionSnapshot) : Side :=
  match trendDirection position with
  | .long => Side.SELL
  | .short => Side.BUY

/-- The per-tick derived P&L of `handlePositionManagement`. -/
def trendPnl (position : PositionSnapshot) (price : ℚ) : ℚ :=
  (match trendDirection position with
   | .long => price - position.entryPrice
   | .short => position.entryPrice - price) * |position.positionAmt|

/-- `const tick = Math.max(1e-9, this.config.priceTick)` of the stepped
profit-lock block. -/
def stepTick (cfg : TradingConfig) : ℚ :=
  max (1 / 1000000000) cfg.priceTick

/-- The trailing-stop activation price the stepped block reasons about: the
resting trailing order's `activatePrice` when present, otherwise the computed
activation price.  (In the rational embedding the result is always finite, so
the source's `Number.isFinite(trailingActivate)` test is always true and its
no-activation-price fallback branch is unreachable.) -/
def resolveTrailingActivate (cfg : TradingConfig) (position : PositionSnapshot)
    (currentTrailing : Option AsterOrder) : ℚ :=
  match currentTrailing with
  | some o =>
      match o.activatePrice with
      | some a => a
      | none =>
          calcTrailingActivationPrice position.entryPrice |position.positionAmt|
            (trendDirection position) cfg.trailingProfit
  | none =>
      calcTrailingActivationPrice position.entryPrice |position.positionAmt|
        (trendDirection position) cfg.trailingProfit

/-- Whether the trailing stop is considered active (with one tick of slack):
long when `price ≥ activate - tick`, short when `price ≤ activate + tick`. -/
def trailingActivated (cfg : TradingConfig) (position : PositionSnapshot) (price : ℚ)
    (currentTrailing : Option AsterOrder) : Bool :=
  match trendDirection position with
  | .long =>
      decide (resolveTrailingActivate cfg position currentTrailing - stepTick cfg ≤ price)
  | .short =>
      decide (price ≤ resolveTrailingActivate cfg position currentTrailing + stepTick cfg)

/-- `basisProfit = Math.max(pnl, unrealized ?? pnl)`; the unrealized P&L is
always finite in the rational embedding, so the `Number.isFinite` fallbacks
collapse. -/
def profitBasis (position : PositionSnapshot) (price : ℚ) : ℚ :=
  max (trendPnl position price) position.unrealizedProfit

/-- `steps = 1 + Math.floor(over / stepUsd)` of the stepped block. -/
def lockSteps (cfg : TradingConfig) (position : PositionSnapshot) (price : ℚ) : ℤ :=
  1 + ⌊(profitBasis position price - max 0 cfg.profitLockTriggerUsd) /
        max 0 cfg.profitLockOffsetUsd⌋

/-- `rawTarget = entry ± steps * stepPx` with `stepPx = stepUsd / qtyAbs`. -/
def rawLockTarget (cfg : TradingConfig) (position : PositionSnapshot) (price : ℚ) : ℚ :=
  match trendDirection position with
  | .long =>
      position.entryPrice +
        lockSteps cfg position price * (max 0 cfg.profitLockOffsetUsd / |position.positionAmt|)
  | .short =>
      position.entryPrice -
        lockSteps cfg position price * (max 0 cfg.profitLockOffsetUsd / |position.positionAmt|)

/-- `targetStop = roundDownToTick(rawTarget, priceTick)`. -/
def lockTargetStop0 (cfg : TradingConfig) (position : PositionSnapshot) (price : ℚ) : ℚ :=
  roundDownToTick (rawLockTarget cfg position price) cfg.priceTick

/-- The clamped SELL target when the raw target reached the activation zone:
`targetStop = Math.min(targetStop, trailingActivate - tick)`. -/
def sellClampTarget (cfg : TradingConfig) (position : PositionSnapshot) (price : ℚ)
    (currentTrailing : Option AsterOrder) : ℚ :=
  min (lockTargetStop0 cfg position price)
    (resolveTrailingActivate cfg position currentTrailing - stepTick cfg)

/-- The clamped BUY target:
`targetStop = Math.max(targetStop, trailingActivate + tick)`. -/
def buyClampTarget (cfg : TradingConfig) (position : PositionSnapshot) (price : ℚ)
    (currentTrailing : Option AsterOrder) : ℚ :=
  max (lockTargetStop0 cfg position price)
    (resolveTrailingActivate cfg position currentTrailing + stepTick cfg)

/-- A proposed stop move: none, place a fresh stop, or replace the resting
stop order with a new target. -/
inductive StepAction where
  | idle
  | place (target : ℚ)
  | replace (existing : AsterOrder) (target : ℚ)
deriving DecidableEq, Repr

/-- The SELL clamp sub-step (`targetStop >= trailingActivate - tick`): clamp
the target and move the stop only when this improves on the resting stop by
at least one tick (`canImprove`). -/
def sellClampAct (cfg : TradingConfig) (position : PositionSnapshot) (price : ℚ)
    (currentTrailing currentStop : Option AsterOrder) : StepAction :=
  match currentStop with
  | some o =>
      if o.stopPrice + stepTick cfg ≤ sellClampTarget cfg position price currentTrailing
      then StepAction.replace o (sellClampTarget cfg position price currentTrailing)
      else StepAction.idle
  | none => StepAction.place (sellClampTarget cfg position price currentTrailing)

/-- The BUY clamp sub-step (`targetStop <= trailingActivate + tick`). -/
def buyClampAct (cfg : TradingConfig) (position : PositionSnapshot) (price : ℚ)
    (currentTrailing currentStop : Option AsterOrder) : StepAction :=
  match currentStop with
  | some o =>
      if buyClampTarget cfg position price currentTrailing ≤ o.stopPrice - stepTick cfg
      then StepAction.replace o (buyClampTarget cfg position price currentTrailing)
      else StepAction.idle
  | none => StepAction.place (buyClampTarget cfg position price currentTrailing)

/-- The in-range sub-step (target strictly inside the activation zone and on
the valid side of the current price): place when no stop rests, otherwise
replace only on an at-least-one-tick improvement (`improves`). -/
def normalStepAct (cfg : TradingConfig) (position : PositionSnapshot) (price : ℚ)
    (currentStop : Option AsterOrder) : StepAction :=
  match currentStop with
  | none => StepAction.place (lockTargetStop0 cfg position price)
  | some o =>
      if (trendStopSide position = Side.SELL ∧
            o.stopPrice + stepTick cfg ≤ lockTargetStop0 cfg position price) ∨
          (trendStopSide position = Side.BUY ∧
            lockTargetStop0 cfg position price ≤ o.stopPrice - stepTick cfg) then
        StepAction.replace o (lockTargetStop0 cfg position price)
      else StepAction.idle

/-- The proposed stop move of one stepped-profit-lock evaluation
(`src/core/trend-engine.ts` lines 410–517), as a pure decision: `idle` (no
move), `place target` (no resting stop), or `replace o target` (improve the
resting stop `o`).  The block runs only while the trailing stop is inactive,
the position has size and a positive step is configured, and the profit
basis reached the trigger threshold. -/
def steppedStopAction (cfg : TradingConfig) (position : PositionSnapshot) (price : ℚ)
    (currentStop currentTrailing : Option AsterOrder) : StepAction :=
  if trailingActivated cfg position price currentTrailing then StepAction.idle
  else if ¬ (0 < |position.positionAmt| ∧ 0 < max 0 cfg.profitLockOffsetUsd) then
    StepAction.idle
  else if ¬ (max 0 cfg.profitLockTriggerUsd ≤ profitBasis position price) then
    StepAction.idle
  else if trendStopSide position = Side.SELL ∧
      resolveTrailingActivate cfg position currentTrailing - stepTick cfg ≤
        lockTargetStop0 cfg position price then
    sellClampAct cfg position price currentTrailing currentStop
  else if trendStopSide position = Side.BUY ∧
      lockTargetStop0 cfg position price ≤
        resolveTrailingActivate cfg position currentTrailing + stepTick cfg then
    buyClampAct cfg position price currentTrailing currentStop
  else if (trendStopSide position = Side.SELL ∧
        lockTargetStop0 cfg position price ≤ price - stepTick cfg) ∨
      (trendStopSide position = Side.BUY ∧
        price + stepTick cfg ≤ lockTargetStop0 cfg position price) then
    normalStepAct cfg position price currentStop
  else StepAction.idle

/-- The pre-check of `tryReplaceStop`: the move is skipped when the next stop
price conflicts with the current price (SELL at or above it, BUY at or below
it). -/
def tryReplaceStopGate (side : Side) (nextStopPrice lastPrice : ℚ) : Bool :=
  ! (decide (side = Side.SELL ∧ lastPrice ≤ nextStopPrice) ||
     decide (side = Side.BUY ∧ nextStopPrice ≤ lastPrice))

/-- The stop submission produced by one stepped-profit-lock evaluation:
`some (submittedStopPrice, target, isReplace)` when a stop order reaches
`adapter.createOrder`, `none` otherwise.  The submitted price is the
tick-rounded target as built by `placeStopLossOrder`; the replace path passes
the `tryReplaceStop` pre-check first, and both paths pass
`placeStopLossOrder`'s stop-vs-last-price sanity check.  The coordinator's
per-type lock, deduplication and mark-price guard can only suppress a
submission, never alter its price, so they are not modelled here. -/
def steppedStopSubmission (cfg : TradingConfig) (position : PositionSnapshot) (price : ℚ)
    (currentStop currentTrailing : Option AsterOrder) : Option (ℚ × ℚ × Bool) :=
  match steppedStopAction cfg position price currentStop currentTrailing with
  | StepAction.idle => none
  | StepAction.place target =>
      if stopPriceImmediatelyTriggers (trendStopSide position) target (some price) then none
      else some (roundDownToTick target cfg.priceTick, target, false)
  | StepAction.replace _ target =>
      if tryReplaceStopGate (trendStopSide position) target price then
        if stopPriceImmediatelyTriggers (trendStopSide position) target (some price) then
          none
        else some (roundDownToTick target cfg.priceTick, target, true)
      else none

/-- Sample configuration for exercising the stepped profit-lock: tick 0.1,
loss limit 10, trailing profit 10, lock step 1 USD, lock trigger 2 USD. -/
def sampleLockCfg : TradingConfig := ⟨1 / 10, 10, 10, 1, 2⟩

/-- Sample long position: 1 unit at entry 100. -/
def sampleLockPos : PositionSnapshot := ⟨1, 100, 0, some 105⟩

/-- Sample resting stop order at stop price 99. -/
def sampleRestingStop : AsterOrder :=
  ⟨3, "S", "STOP_MARKET", Side.SELL, "NEW", 0, 1, 99, none, false, 0, 0⟩

/-! ## Theorems -/

/-- C1, counterexample.  A long position of 1 unit at entry 100 with best bid
101 has derived P&L +1 > 0; its exchange-reported unrealized P&L of −50
breaches `-lossLimit = -10`, yet `shouldStopLoss` returns `false`, because the
code additionally requires the derived P&L to be ≤ 0 on the snapshot leg.
The claim, which says a breach of either P&L alone forces the stop, is
therefore false on the code. -/
theorem shouldStopLoss_claim_counterexample :
    shouldStopLoss ⟨1, 100, -50, none⟩ 101 102 10 = false ∧
      (-50 : ℚ) < -(10 : ℚ) ∧ eps ≤ |(1 : ℚ)| := by
  refine ⟨by norm_num [shouldStopLoss, eps], by norm_num, by rw [abs_one]; norm_num [eps]⟩

/-- C1, amended.  For a non-flat position, `shouldStopLoss` returns true iff
the derived P&L breaches `-lossLimit`, or the snapshot unrealized P&L breaches
`-lossLimit` while the derived P&L is non-positive; flat positions
(|amt| < 1e-5) never trigger. -/
theorem shouldStopLoss_amended (position : PositionSnapshot) (bestBid bestAsk lossLimit : ℚ) :
    shouldStopLoss position bestBid bestAsk lossLimit = true ↔
      (eps ≤ |position.positionAmt| ∧
        (riskPnl position bestBid bestAsk < -lossLimit ∨
          (position.unrealizedProfit < -lossLimit ∧ riskPnl position bestBid bestAsk ≤ 0))) := by
  unfold shouldStopLoss riskPnl
  by_cases hflat : |position.positionAmt| < eps
  · simp [hflat, not_le.mpr hflat]
  · simp only [hflat, if_false, Bool.or_eq_true, decide_eq_true_eq]
    constructor
    · intro h
      exact ⟨not_lt.mp hflat, h⟩
    · intro h
      exact h.2

/-- C1, amended, witness: a long position of 1 unit at entry 100 with best bid
89 has derived P&L −11 < −10, and the amended characterization certifies that
`shouldStopLoss` fires. -/
theorem shouldStopLoss_amended_witness :
    shouldStopLoss ⟨1, 100, -11, none⟩ 89 90 10 = true :=
  (shouldStopLoss_amended ⟨1, 100, -11, none⟩ 89 90 10).mpr
    (by refine ⟨by rw [abs_one]; norm_num [eps], Or.inl ?_⟩
        norm_num [riskPnl])

/-- C2, counterexample.  With `maxPct = -1`, `mark = 100`, a BUY at price 60:
the claim's bound `mark * (1 + maxPct) = 0` would reject the order, but the
guard clamps a negative `maxPct` to 0 and allows it. -/
theorem markGuard_claim_counterexample :
    isOrderPriceAllowedByMark Side.BUY (JVal.jnum (JNum.fin 60)) (JVal.jnum (JNum.fin 100))
        (-1) = true ∧
      ¬ ((60 : ℚ) ≤ 100 * (1 + (-1))) := by
  exact ⟨by norm_num [isOrderPriceAllowedByMark, JVal.toNum], by norm_num⟩

/-- C2, amended.  For a finite, strictly positive mark price and a
non-negative `maxPct`, the guard allows a BUY iff its price is at most
`mark * (1 + maxPct)` and allows a SELL iff its price is at least
`mark * (1 - maxPct)`. -/
theorem markGuard_amended (price mark maxPct : ℚ) (hm : 0 < mark) (hp : 0 ≤ maxPct) :
    (isOrderPriceAllowedByMark Side.BUY (JVal.jnum (JNum.fin price))
        (JVal.jnum (JNum.fin mark)) maxPct = true ↔ price ≤ mark * (1 + maxPct)) ∧
    (isOrderPriceAllowedByMark Side.SELL (JVal.jnum (JNum.fin price))
        (JVal.jnum (JNum.fin mark)) maxPct = true ↔ price ≥ mark * (1 - maxPct)) := by
  have hmax : max 0 maxPct = maxPct := max_eq_right hp
  constructor
  · simp [isOrderPriceAllowedByMark, JVal.toNum, not_le.mpr hm, hmax]
  · simp [isOrderPriceAllowedByMark, JVal.toNum, not_le.mpr hm, hmax, ge_iff_le]

/-- C2, amended, witness: the spec's four concrete examples.  With mark 100 and
maxPct 0.005 a BUY at 101 is rejected and at 100.4 allowed; a SELL at 99.4 is
rejected and at 99.6 allowed. -/
theorem markGuard_amended_witness :
    isOrderPriceAllowedByMark Side.BUY (JVal.jnum (JNum.fin 101))
        (JVal.jnum (JNum.fin 100)) (5 / 1000) = false ∧
    isOrderPriceAllowedByMark Side.BUY (JVal.jnum (JNum.fin (1004 / 10)))
        (JVal.jnum (JNum.fin 100)) (5 / 1000) = true ∧
    isOrderPriceAllowedByMark Side.SELL (JVal.jnum (JNum.fin (994 / 10)))
        (JVal.jnum (JNum.fin 100)) (5 / 1000) = false ∧
    isOrderPriceAllowedByMark Side.SELL (JVal.jnum (JNum.fin (996 / 10)))
        (JVal.jnum (JNum.fin 100)) (5 / 1000) = true := by
  have h1 := (markGuard_amended 101 100 (5 / 1000) (by norm_num) (by norm_num)).1
  have h2 := (markGuard_amended (1004 / 10) 100 (5 / 1000) (by norm_num) (by norm_num)).1
  have h3 := (markGuard_amended (994 / 10) 100 (5 / 1000) (by norm_num) (by norm_num)).2
  have h4 := (markGuard_amended (996 / 10) 100 (5 / 1000) (by norm_num) (by norm_num)).2
  refine ⟨?_, h2.mpr (by norm_num), ?_, h4.mpr (by norm_num)⟩
  · cases hb : isOrderPriceAllowedByMark Side.BUY (JVal.jnum (JNum.fin 101))
      (JVal.jnum (JNum.fin 100)) (5 / 1000) with
    | false => rfl
    | true => exact absurd (h1.mp hb) (by norm_num)
  · cases hs : isOrderPriceAllowedByMark Side.SELL (JVal.jnum (JNum.fin (994 / 10)))
      (JVal.jnum (JNum.fin 100)) (5 / 1000) with
    | false => rfl
    | true => exact absurd (h3.mp hs) (by norm_num)

/-- C10.  The guard degrades open: whenever the mark price coerces to a
non-finite number or is not strictly positive, or the order price coerces to a
non-finite number, every order passes; a negative `maxPct` behaves exactly as
`maxPct = 0`; and the guard never rejects an order that `maxPct = 0` would
allow (it is never stricter than `maxPct = 0`). -/
theorem markGuard_invalid_inputs_and_negative_maxPct :
    (∀ (side : Side) (orderPrice markPrice : JVal) (maxPct : ℚ),
        (∀ m : ℚ, markPrice.toNum = JNum.fin m → m ≤ 0) →
        isOrderPriceAllowedByMark side orderPrice markPrice maxPct = true) ∧
    (∀ (side : Side) (orderPrice markPrice : JVal) (maxPct : ℚ),
        orderPrice.toNum.isFinite = false →
        isOrderPriceAllowedByMark side orderPrice markPrice maxPct = true) ∧
    (∀ (side : Side) (orderPrice markPrice : JVal) (maxPct : ℚ), maxPct < 0 →
        isOrderPriceAllowedByMark side orderPrice markPrice maxPct =
          isOrderPriceAllowedByMark side orderPrice markPrice 0) ∧
    (∀ (side : Side) (orderPrice markPrice : JVal) (maxPct : ℚ),
        isOrderPriceAllowedByMark side orderPrice markPrice 0 = true →
        isOrderPriceAllowedByMark side orderPrice markPrice maxPct = true) := by
  refine ⟨?_, ?_, ?_, ?_⟩
  · intro side op mp maxPct hmark
    unfold isOrderPriceAllowedByMark
    cases hop : op.toNum with
    | fin p =>
        cases hmp : mp.toNum with
        | fin m => simp [hmark m hmp]
        | nan => rfl
        | pinf => rfl
        | ninf => rfl
    | nan => rfl
    | pinf => rfl
    | ninf => rfl
  · intro side op mp maxPct hof
    unfold isOrderPriceAllowedByMark
    cases hop : op.toNum with
    | fin p => rw [hop] at hof; simp [JNum.isFinite] at hof
    | nan => rfl
    | pinf => rfl
    | ninf => rfl
  · intro side op mp maxPct hneg
    unfold isOrderPriceAllowedByMark
    have : max 0 maxPct = max 0 (0 : ℚ) := by
      rw [max_eq_left hneg.le, max_self]
    rw [this]
  · intro side op mp maxPct h0
    unfold isOrderPriceAllowedByMark at h0 ⊢
    cases hop : op.toNum with
    | fin p =>
        cases hmp : mp.toNum with
        | fin m =>
            rw [hop, hmp] at h0
            by_cases hm : m ≤ 0
            · simp [hm]
            · have hmpos : 0 < m := not_le.mp hm
              have hmax : (0 : ℚ) ≤ max 0 maxPct := le_max_left 0 maxPct
              have hq : 0 ≤ m * max 0 maxPct := mul_nonneg hmpos.le hmax
              cases side with
              | BUY =>
                  simp only [if_neg hm, decide_eq_true_eq, max_self] at h0 ⊢
                  nlinarith
              | SELL =>
                  simp only [if_neg hm, decide_eq_true_eq, max_self, ge_iff_le] at h0 ⊢
                  nlinarith
        | nan => rfl
        | pinf => rfl
        | ninf => rfl
    | nan => rfl
    | pinf => rfl
    | ninf => rfl

/-- C10, witness: with a null mark price a BUY at any price passes; with a
negative `maxPct` the guard coincides with `maxPct = 0`. -/
theorem markGuard_invalid_inputs_witness :
    isOrderPriceAllowedByMark Side.BUY (JVal.jnum (JNum.fin 1000000)) JVal.jnull 0 = true ∧
    isOrderPriceAllowedByMark Side.SELL (JVal.jnum (JNum.fin 1)) (JVal.jnum (JNum.fin 100))
        (-(1 : ℚ) / 2) =
      isOrderPriceAllowedByMark Side.SELL (JVal.jnum (JNum.fin 1)) (JVal.jnum (JNum.fin 100)) 0 :=
  ⟨markGuard_invalid_inputs_and_negative_maxPct.1 Side.BUY (JVal.jnum (JNum.fin 1000000))
      JVal.jnull 0 (fun m hm => by injection hm with h; rw [← h]),
   markGuard_invalid_inputs_and_negative_maxPct.2.2.1 Side.SELL (JVal.jnum (JNum.fin 1))
      (JVal.jnum (JNum.fin 100)) (-(1 : ℚ) / 2) (by norm_num)⟩

/-- C8.  Lock-state algebra of the coordinator: `isLocked` is true immediately
after `lock` and false immediately after `unlock`; `unlock` is idempotent,
clears the pending id and cancels the timer; `lock` called with the source's
default timeout arms the timer with 3000 ms; and when the auto-unlock timer
fires before an explicit unlock, both the lock and the pending id are cleared,
so `isLocked` becomes false. -/
theorem lock_unlock_timer_spec (s : CoordState) (type : String) (timeout : ℕ) :
    isOperating (lockOperating s type timeout) type = true ∧
    isOperating (unlockOperating s type) type = false ∧
    unlockOperating (unlockOperating s type) type = unlockOperating s type ∧
    (unlockOperating s type).pending type = none ∧
    (unlockOperating s type).timers type = none ∧
    (lockOperating s type 3000).timers type = some 3000 ∧
    isOperating (timerFire (lockOperating s type timeout) type) type = false ∧
    (timerFire (lockOperating s type timeout) type).pending type = none := by
  refine ⟨?_, ?_, ?_, ?_, ?_, ?_, ?_, ?_⟩ <;>
    simp [isOperating, lockOperating, unlockOperating, timerFire, upd]
  constructor
  · funext x
    by_cases hx : x = type <;> simp [upd, hx]
  constructor
  · funext x
    by_cases hx : x = type <;> simp [upd, hx]
  · funext x
    by_cases hx : x = type <;> simp [upd, hx]

/-- Frame lemma: a synchronization step over key `k` leaves the lock, timer
and pending slots of any other key `t` unchanged. -/
theorem syncStep_stateAt_ne (cond : ℕ → Bool) (st : CoordState) (k t : String)
    (h : k ≠ t) : stateAt (syncStep cond st k) t = stateAt st t := by
  unfold syncStep
  cases st.pending k with
  | none => rfl
  | some pid =>
      by_cases hc : cond pid
      · simp only [hc, if_true]
        unfold stateAt unlockOperating upd
        simp [Ne.symm h]
      · simp [hc]

/-- Frame lemma: the synchronization pass over keys not containing `t` leaves
the slots of `t` unchanged. -/
theorem syncPass_stateAt_not_mem (cond : ℕ → Bool) (keys : List String) (t : String)
    (ht : t ∉ keys) : ∀ s : CoordState, stateAt (syncPass cond s keys) t = stateAt s t := by
  induction keys with
  | nil => intro s; rfl
  | cons k rest ih =>
      intro s
      have hk : k ≠ t := fun hkt => ht (hkt ▸ List.mem_cons_self k rest)
      have hrest : t ∉ rest := fun hr => ht (List.mem_cons_of_mem k hr)
      have h1 := syncStep_stateAt_ne cond s k t hk
      calc stateAt (syncPass cond (syncStep cond s k) rest) t
          = stateAt (syncStep cond s k) t := ih hrest (syncStep cond s k)
        _ = stateAt s t := h1

/-- The synchronization step at `t` only reads the slots of `t`, so two states
agreeing at `t` step to states agreeing at `t`. -/
theorem syncStep_stateAt_congr (cond : ℕ → Bool) (st st' : CoordState) (t : String)
    (h : stateAt st t = stateAt st' t) :
    stateAt (syncStep cond st t) t = stateAt (syncStep cond st' t) t := by
  have hp : st.pending t = st'.pending t := congrArg (fun x => x.2.2) h
  unfold syncStep
  rw [hp]
  cases st'.pending t with
  | none => exact h
  | some pid =>
      by_cases hc : cond pid
      · simp only [hc, if_true]
        unfold stateAt unlockOperating upd
        simp
      · simpa [hc]

/-- The synchronization pass acts on the slots of a key `t` occurring once in
the key list exactly as a single step at `t` does. -/
theorem syncPass_stateAt_mem (cond : ℕ → Bool) (keys : List String) (t : String)
    (hnd : keys.Nodup) (ht : t ∈ keys) :
    ∀ s : CoordState, stateAt (syncPass cond s keys) t = stateAt (syncStep cond s t) t := by
  induction keys with
  | nil => cases ht
  | cons k rest ih =>
      intro s
      by_cases hk : k = t
      · have hknot : k ∉ rest := (List.nodup_cons.mp hnd).1
        have hrest : t ∉ rest := hk ▸ hknot
        calc stateAt (syncPass cond (syncStep cond s k) rest) t
            = stateAt (syncStep cond s k) t :=
              syncPass_stateAt_not_mem cond rest t hrest (syncStep cond s k)
          _ = stateAt (syncStep cond s t) t := by rw [hk]
      · have htr : t ∈ rest := by
          cases ht with
          | head => exact absurd rfl hk
          | tail _ h => exact h
        have hnd' : rest.Nodup := (List.nodup_cons.mp hnd).2
        calc stateAt (syncPass cond (syncStep cond s k) rest) t
            = stateAt (syncStep cond (syncStep cond s k) t) t := ih hnd' htr _
          _ = stateAt (syncStep cond s t) t :=
              syncStep_stateAt_congr cond _ s t (syncStep_stateAt_ne cond s k t hk)

/-- C3, counterexample.  The trend engine's synchronization pass releases the
lock of an order type whose pending order is reported `PARTIALLY_FILLED`: the
claim says the lock stays held while the matching order is new or partially
filled, but `synchronizeLocks` only keeps it for status `"NEW"`. -/
theorem synchronizeLocks_claim_counterexample :
    (synchronizeLocks
        ⟨fun t => t == "LIMIT", fun _ => none, fun t => if t == "LIMIT" then some 1 else none⟩
        ["LIMIT"]
        [⟨1, "BTCUSDT", "LIMIT", Side.BUY, "PARTIALLY_FILLED", 100, 1, 0, none, false, 5, 6⟩]).locks
      "LIMIT" = false ∧
    (⟨1, "BTCUSDT", "LIMIT", Side.BUY, "PARTIALLY_FILLED", 100, 1, 0, none, false, 5, 6⟩ :
        AsterOrder).status = "PARTIALLY_FILLED" ∧
    ((fun t => t == "LIMIT") "LIMIT") = true ∧
    ((fun t => if t == "LIMIT" then some 1 else none) "LIMIT" : Option ℕ) = some 1 := by
  refine ⟨?_, rfl, rfl, rfl⟩
  simp [synchronizeLocks, syncPass, syncStep, trendReleaseCond, List.find?,
    unlockOperating, upd]

/-- C3, amended.  On a push update, for an order type `t` (iterated once by the
pass) whose pending id is non-null and whose lock is held: the offset maker's
pass releases the lock exactly when no open order matches the pending id or
the matching order's status is truthy and neither `"NEW"` nor
`"PARTIALLY_FILLED"`; the trend engine's pass releases it exactly when no
order matches or the status is truthy and not `"NEW"` — so the trend engine,
unlike the claim and the maker engine, also releases on `PARTIALLY_FILLED`.
Released means lock cleared and pending id erased; otherwise both survive. -/
theorem synchronizeLocks_amended (s : CoordState) (keys : List String)
    (orders : List AsterOrder) (t : String) (pid : ℕ)
    (hnd : keys.Nodup) (ht : t ∈ keys) (hp : s.pending t = some pid)
    (hl : s.locks t = true) :
    ((trendReleaseCond pid orders = true →
        (synchronizeLocks s keys orders).locks t = false ∧
          (synchronizeLocks s keys orders).pending t = none) ∧
      (trendReleaseCond pid orders = false →
        (synchronizeLocks s keys orders).locks t = true ∧
          (synchronizeLocks s keys orders).pending t = some pid)) ∧
    ((makerReleaseCond pid orders = true →
        (syncLocksWithOrders s keys orders).locks t = false ∧
          (syncLocksWithOrders s keys orders).pending t = none) ∧
      (makerReleaseCond pid orders = false →
        (syncLocksWithOrders s keys orders).locks t = true ∧
          (syncLocksWithOrders s keys orders).pending t = some pid)) := by
  have htrend := syncPass_stateAt_mem (fun pid => trendReleaseCond pid orders) keys t hnd ht s
  have hmaker := syncPass_stateAt_mem (fun pid => makerReleaseCond pid orders) keys t hnd ht s
  constructor
  · constructor
    · intro hrel
      have : stateAt (synchronizeLocks s keys orders) t =
          stateAt (unlockOperating s t) t := by
        rw [synchronizeLocks, htrend]
        unfold syncStep
        rw [hp]
        simp [hrel]
      have hlocks := congrArg (fun x => x.1) this
      have hpend := congrArg (fun x => x.2.2) this
      simp only [stateAt] at hlocks hpend
      rw [hlocks, hpend]
      exact ⟨by simp [unlockOperating, upd], by simp [unlockOperating, upd]⟩
    · intro hrel
      have : stateAt (synchronizeLocks s keys orders) t = stateAt s t := by
        rw [synchronizeLocks, htrend]
        unfold syncStep
        rw [hp]
        simp [hrel]
      have hlocks := congrArg (fun x => x.1) this
      have hpend := congrArg (fun x => x.2.2) this
      simp only [stateAt] at hlocks hpend
      rw [hlocks, hpend]
      exact ⟨hl, hp⟩
  · constructor
    · intro hrel
      have : stateAt (syncLocksWithOrders s keys orders) t =
          stateAt (unlockOperating s t) t := by
        rw [syncLocksWithOrders, hmaker]
        unfold syncStep
        rw [hp]
        simp [hrel]
      have hlocks := congrArg (fun x => x.1) this
      have hpend := congrArg (fun x => x.2.2) this
      simp only [stateAt] at hlocks hpend
      rw [hlocks, hpend]
      exact ⟨by simp [unlockOperating, upd], by simp [unlockOperating, upd]⟩
    · intro hrel
      have : stateAt (syncLocksWithOrders s keys orders) t = stateAt s t := by
        rw [syncLocksWithOrders, hmaker]
        unfold syncStep
        rw [hp]
        simp [hrel]
      have hlocks := congrArg (fun x => x.1) this
      have hpend := congrArg (fun x => x.2.2) this
      simp only [stateAt] at hlocks hpend
      rw [hlocks, hpend]
      exact ⟨hl, hp⟩

/-- C3, amended, witness: a pending `PARTIALLY_FILLED` order keeps the maker
engine's lock held but the trend engine's pass releases it. -/
theorem synchronizeLocks_amended_witness :
    (syncLocksWithOrders
        ⟨fun t => t == "LIMIT", fun _ => none, fun t => if t == "LIMIT" then some 1 else none⟩
        ["LIMIT"]
        [⟨1, "BTCUSDT", "LIMIT", Side.BUY, "PARTIALLY_FILLED", 100, 1, 0, none, false, 5, 6⟩]).locks
      "LIMIT" = true ∧
    (synchronizeLocks
        ⟨fun t => t == "LIMIT", fun _ => none, fun t => if t == "LIMIT" then some 1 else none⟩
        ["LIMIT"]
        [⟨1, "BTCUSDT", "LIMIT", Side.BUY, "PARTIALLY_FILLED", 100, 1, 0, none, false, 5, 6⟩]).pending
      "LIMIT" = none := by
  have h := synchronizeLocks_amended
    ⟨fun t => t == "LIMIT", fun _ => none, fun t => if t == "LIMIT" then some 1 else none⟩
    ["LIMIT"]
    [⟨1, "BTCUSDT", "LIMIT", Side.BUY, "PARTIALLY_FILLED", 100, 1, 0, none, false, 5, 6⟩]
    "LIMIT" 1 (by simp) (by simp) rfl rfl
  refine ⟨(h.2.2 ?_).1, (h.1.1 ?_).2⟩
  · simp [makerReleaseCond, List.find?]
  · simp [trendReleaseCond, List.find?]

/-- C9, counterexample.  A long position with 10-level depth sums
`buySum = 1`, `sellSum = 6` is outnumbered exactly 6:1 — "at least 6:1" per
the claim — yet `handleImbalanceExit` does not trigger, because the code
requires the strict inequality `buySum * 6 < sellSum`. -/
theorem imbalanceExit_claim_counterexample :
    imbalanceExitRequired ⟨1, 100, 0, none⟩ 1 6 = false ∧
      (6 : ℚ) ≥ 6 * 1 ∧ eps ≤ |(1 : ℚ)| := by
  refine ⟨by norm_num [imbalanceExitRequired, eps], by norm_num,
    by rw [abs_one]; norm_num [eps]⟩

/-- C9, amended.  The emergency depth-imbalance exit triggers iff the position
is non-flat and the held side's 10-level depth sum is zero or strictly
outnumbered more than 6:1 by the opposing side's sum (strictly more than, not
"at least"): for longs `buySum = 0 ∨ 6 * buySum < sellSum`, for shorts
`sellSum = 0 ∨ 6 * sellSum < buySum`. -/
theorem imbalanceExit_amended (position : PositionSnapshot) (buySum sellSum : ℚ) :
    imbalanceExitRequired position buySum sellSum = true ↔
      (eps ≤ |position.positionAmt| ∧
        ((0 < position.positionAmt ∧ (buySum = 0 ∨ 6 * buySum < sellSum)) ∨
          (position.positionAmt < 0 ∧ (sellSum = 0 ∨ 6 * sellSum < buySum)))) := by
  unfold imbalanceExitRequired
  by_cases hflat : |position.positionAmt| < eps
  · simp [hflat, not_le.mpr hflat]
  · simp only [hflat, if_false, Bool.or_eq_true, decide_eq_true_eq]
    rw [mul_comm buySum 6, mul_comm sellSum 6]
    constructor
    · intro h
      exact ⟨not_lt.mp hflat, h⟩
    · intro h
      exact h.2

/-- C9, amended, witness: a long position with buy depth 1 against sell depth
7 (ratio 7:1 > 6:1) triggers the emergency exit. -/
theorem imbalanceExit_amended_witness :
    imbalanceExitRequired ⟨1, 100, 0, none⟩ 1 7 = true :=
  (imbalanceExit_amended ⟨1, 100, 0, none⟩ 1 7).mpr
    ⟨by rw [abs_one]; norm_num [eps], Or.inl ⟨by norm_num, Or.inr (by norm_num)⟩⟩

/-- Stable insertion is a permutation of consing. -/
theorem insertByKeyDesc_perm (a : AsterOrder) (l : List AsterOrder) :
    List.Perm (insertByKeyDesc a l) (a :: l) := by
  induction l with
  | nil => exact List.Perm.refl _
  | cons b bs ih =>
      unfold insertByKeyDesc
      by_cases h : dedupSortKey b ≤ dedupSortKey a
      · simp [h]
      · simp only [h, if_false]
        exact (List.Perm.cons b ih).trans (List.Perm.swap a b bs)

/-- Stable insertion preserves the most-recent-first ordering. -/
theorem insertByKeyDesc_pairwise (a : AsterOrder) (l : List AsterOrder)
    (h : l.Pairwise (fun x y => dedupSortKey y ≤ dedupSortKey x)) :
    (insertByKeyDesc a l).Pairwise (fun x y => dedupSortKey y ≤ dedupSortKey x) := by
  induction l with
  | nil => simp [insertByKeyDesc]
  | cons b bs ih =>
      rcases List.pairwise_cons.mp h with ⟨hb, hbs⟩
      unfold insertByKeyDesc
      by_cases hba : dedupSortKey b ≤ dedupSortKey a
      · simp only [hba, if_true]
        refine List.pairwise_cons.mpr ⟨?_, h⟩
        intro y hy
        rcases List.mem_cons.mp hy with hyb | hybs
        · exact hyb ▸ hba
        · exact (hb y hybs).trans hba
      · simp only [hba, if_false]
        refine List.pairwise_cons.mpr ⟨?_, ih hbs⟩
        intro y hy
        have hmem : y ∈ a :: bs := (insertByKeyDesc_perm a bs).mem_iff.mp hy
        rcases List.mem_cons.mp hmem with hya | hybs
        · exact hya ▸ (not_le.mp hba).le
        · exact hb y hybs

/-- The most-recent-first sort is a permutation of its input. -/
theorem sortByKeyDesc_perm (l : List AsterOrder) : List.Perm (sortByKeyDesc l) l := by
  induction l with
  | nil => exact List.Perm.refl _
  | cons x xs ih =>
      exact (insertByKeyDesc_perm x (sortByKeyDesc xs)).trans (List.Perm.cons x ih)

/-- The most-recent-first sort is sorted by descending key. -/
theorem sortByKeyDesc_pairwise (l : List AsterOrder) :
    (sortByKeyDesc l).Pairwise (fun x y => dedupSortKey y ≤ dedupSortKey x) := by
  induction l with
  | nil => simp [sortByKeyDesc]
  | cons x xs ih => exact insertByKeyDesc_pairwise x (sortByKeyDesc xs) ih

/-- C5.  `deduplicateOrders`: with at most one same-(type, side) open order it
cancels nothing; with more than one it cancels exactly the orders other than
the head of the most-recent-first sort — an order whose
`updateTime || time || 0` key is maximal among the group — keeping only that
one; and no cancel failure (in particular not the "order already gone" one)
ever escapes to the caller. -/
theorem deduplicateOrders_spec (openOrders : List AsterOrder) (type : String) (side : Side) :
    ((sameTypeOrders openOrders type side).length ≤ 1 →
        deduplicatePlan openOrders type side = []) ∧
    (1 < (sameTypeOrders openOrders type side).length →
        ∃ kept rest, sortByKeyDesc (sameTypeOrders openOrders type side) = kept :: rest ∧
          List.Perm (sameTypeOrders openOrders type side) (kept :: rest) ∧
          (∀ o ∈ sameTypeOrders openOrders type side, dedupSortKey o ≤ dedupSortKey kept) ∧
          deduplicatePlan openOrders type side = rest.map (fun o => o.orderId)) ∧
    (∀ cancelOutcome : Except ExError Unit,
        (deduplicateOrdersRun openOrders type side cancelOutcome).raised = none) := by
  refine ⟨?_, ?_, ?_⟩
  · intro h
    simp [deduplicatePlan, h]
  · intro h
    rcases hs : sortByKeyDesc (sameTypeOrders openOrders type side) with _ | ⟨kept, rest⟩
    · have hlen := (sortByKeyDesc_perm (sameTypeOrders openOrders type side)).length_eq
      rw [hs] at hlen
      simp at hlen
      omega
    · refine ⟨kept, rest, rfl, ?_, ?_, ?_⟩
      · have := (sortByKeyDesc_perm (sameTypeOrders openOrders type side)).symm
        rw [hs] at this
        exact this
      · intro o ho
        have hmem : o ∈ kept :: rest := by
          have := (sortByKeyDesc_perm (sameTypeOrders openOrders type side)).symm.mem_iff.mp ho
          rw [hs] at this
          exact this
        rcases List.mem_cons.mp hmem with hok | hor
        · exact le_of_eq (hok ▸ rfl)
        · have hpw := sortByKeyDesc_pairwise (sameTypeOrders openOrders type side)
          rw [hs] at hpw
          exact (List.pairwise_cons.mp hpw).1 o hor
      · simp [deduplicatePlan, not_le.mpr h, hs]
  · intro cancelOutcome
    unfold deduplicateOrdersRun
    by_cases he : (deduplicatePlan openOrders type side).isEmpty
    · simp [he]
    · cases cancelOutcome <;> simp [he]

/-- C5, witness: two same-type/side LIMIT BUY orders with update times 10 and
20 — the plan cancels exactly the stale order (id 1) and keeps the newer one
(id 2); a cancel failing with the unknown-order error raises nothing. -/
theorem deduplicateOrders_spec_witness :
    (∃ kept rest,
        sortByKeyDesc (sameTypeOrders
            [⟨1, "S", "LIMIT", Side.BUY, "NEW", 100, 1, 0, none, false, 5, 10⟩,
             ⟨2, "S", "LIMIT", Side.BUY, "NEW", 100, 1, 0, none, false, 5, 20⟩]
            "LIMIT" Side.BUY) = kept :: rest ∧
        List.Perm (sameTypeOrders
            [⟨1, "S", "LIMIT", Side.BUY, "NEW", 100, 1, 0, none, false, 5, 10⟩,
             ⟨2, "S", "LIMIT", Side.BUY, "NEW", 100, 1, 0, none, false, 5, 20⟩]
            "LIMIT" Side.BUY) (kept :: rest) ∧
        (∀ o ∈ sameTypeOrders
            [⟨1, "S", "LIMIT", Side.BUY, "NEW", 100, 1, 0, none, false, 5, 10⟩,
             ⟨2, "S", "LIMIT", Side.BUY, "NEW", 100, 1, 0, none, false, 5, 20⟩]
            "LIMIT" Side.BUY, dedupSortKey o ≤ dedupSortKey kept) ∧
        deduplicatePlan
            [⟨1, "S", "LIMIT", Side.BUY, "NEW", 100, 1, 0, none, false, 5, 10⟩,
             ⟨2, "S", "LIMIT", Side.BUY, "NEW", 100, 1, 0, none, false, 5, 20⟩]
            "LIMIT" Side.BUY = rest.map (fun o => o.orderId)) ∧
    (deduplicateOrdersRun
        [⟨1, "S", "LIMIT", Side.BUY, "NEW", 100, 1, 0, none, false, 5, 10⟩,
         ⟨2, "S", "LIMIT", Side.BUY, "NEW", 100, 1, 0, none, false, 5, 20⟩]
        "LIMIT" Side.BUY (Except.error ExError.unknownOrder)).raised = none := by
  constructor
  · exact (deduplicateOrders_spec _ _ _).2.1 (by decide)
  · exact (deduplicateOrders_spec _ _ _).2.2 (Except.error ExError.unknownOrder)

/-- Shared submit tail: on a successful `createOrder` the new order id is
recorded as `pending[type]` with the lock left held; on failure the type is
unlocked (pending cleared) and the result is benign exactly for the
unknown-order error, the error being re-raised otherwise. -/
theorem submitWith_spec (s : CoordState) (openOrders : List AsterOrder) (type : String)
    (side : Side) (params : CreateOrderParams) (create : Except ExError AsterOrder) :
    (∀ o, create = Except.ok o →
        (submitWith s openOrders type side params create).1.pending type = some o.orderId ∧
        (submitWith s openOrders type side params create).1.locks type = true ∧
        (submitWith s openOrders type side params create).2 = SubmitResult.placed params o) ∧
    (∀ e, create = Except.error e →
        (submitWith s openOrders type side params create).1.locks type = false ∧
        (submitWith s openOrders type side params create).1.pending type = none ∧
        (submitWith s openOrders type side params create).2 =
          (if isUnknownOrderError e then SubmitResult.benign else SubmitResult.raised e)) := by
  constructor
  · intro o ho
    subst ho
    refine ⟨?_, ?_, rfl⟩ <;> simp [submitWith, lockOperating, upd]
  · intro e he
    subst he
    refine ⟨?_, ?_, rfl⟩ <;> simp [submitWith, unlockOperating, upd]

/-- C6.  Every coordinator submit operation (limit, market, stop,
trailing-stop, market-close): returns without submitting when its order type
is locked; given a passing guard and an unlocked type, a successful
submission records the new order id in `pending[type]` and leaves the lock
held, while a failed submission releases the lock and yields a benign result
iff the failure is the unknown-order error, re-raising every other error. -/
theorem submitOps_spec :
    (∀ (s : CoordState) (symbol : String) (openOrders : List AsterOrder) (side : Side)
        (price amount : ℚ) (reduceOnly : Bool) (guard : Option OrderGuardOptions)
        (priceTick qtyStep : ℚ) (create : Except ExError AsterOrder),
      (isOperating s "LIMIT" = true →
        placeOrder s symbol openOrders side price amount reduceOnly guard priceTick qtyStep
            create = (s, SubmitResult.skippedLocked)) ∧
      (∀ o, isOperating s "LIMIT" = false →
        enforceMarkPriceGuard side (JVal.jnum (JNum.fin price)) guard = true →
        create = Except.ok o →
        (placeOrder s symbol openOrders side price amount reduceOnly guard priceTick qtyStep
            create).1.pending "LIMIT" = some o.orderId ∧
        (placeOrder s symbol openOrders side price amount reduceOnly guard priceTick qtyStep
            create).1.locks "LIMIT" = true) ∧
      (∀ e, isOperating s "LIMIT" = false →
        enforceMarkPriceGuard side (JVal.jnum (JNum.fin price)) guard = true →
        create = Except.error e →
        (placeOrder s symbol openOrders side price amount reduceOnly guard priceTick qtyStep
            create).1.locks "LIMIT" = false ∧
        (placeOrder s symbol openOrders side price amount reduceOnly guard priceTick qtyStep
            create).2 =
          (if isUnknownOrderError e then SubmitResult.benign else SubmitResult.raised e))) ∧
    (∀ (s : CoordState) (symbol : String) (openOrders : List AsterOrder) (side : Side)
        (amount : ℚ) (reduceOnly : Bool) (guard : Option OrderGuardOptions) (qtyStep : ℚ)
        (create : Except ExError AsterOrder),
      (isOperating s "MARKET" = true →
        placeMarketOrder s symbol openOrders side amount reduceOnly guard qtyStep create =
          (s, SubmitResult.skippedLocked)) ∧
      (∀ o, isOperating s "MARKET" = false →
        enforceMarkPriceGuard side (guardExpectedPrice guard) guard = true →
        create = Except.ok o →
        (placeMarketOrder s symbol openOrders side amount reduceOnly guard qtyStep
            create).1.pending "MARKET" = some o.orderId ∧
        (placeMarketOrder s symbol openOrders side amount reduceOnly guard qtyStep
            create).1.locks "MARKET" = true) ∧
      (∀ e, isOperating s "MARKET" = false →
        enforceMarkPriceGuard side (guardExpectedPrice guard) guard = true →
        create = Except.error e →
        (placeMarketOrder s symbol openOrders side amount reduceOnly guard qtyStep
            create).1.locks "MARKET" = false ∧
        (placeMarketOrder s symbol openOrders side amount reduceOnly guard qtyStep
            create).2 =
          (if isUnknownOrderError e then SubmitResult.benign else SubmitResult.raised e))) ∧
    (∀ (s : CoordState) (symbol : String) (openOrders : List AsterOrder) (side : Side)
        (stopPrice quantity : ℚ) (lastPrice : Option ℚ) (guard : Option OrderGuardOptions)
        (priceTick qtyStep : ℚ) (create : Except ExError AsterOrder),
      (isOperating s "STOP_MARKET" = true →
        placeStopLossOrder s symbol openOrders side stopPrice quantity lastPrice guard
            priceTick qtyStep create = (s, SubmitResult.skippedLocked)) ∧
      (∀ o, isOperating s "STOP_MARKET" = false →
        enforceMarkPriceGuard side (JVal.jnum (JNum.fin stopPrice)) guard = true →
        stopPriceImmediatelyTriggers side stopPrice lastPrice = false →
        create = Except.ok o →
        (placeStopLossOrder s symbol openOrders side stopPrice quantity lastPrice guard
            priceTick qtyStep create).1.pending "STOP_MARKET" = some o.orderId ∧
        (placeStopLossOrder s symbol openOrders side stopPrice quantity lastPrice guard
            priceTick qtyStep create).1.locks "STOP_MARKET" = true) ∧
      (∀ e, isOperating s "STOP_MARKET" = false →
        enforceMarkPriceGuard side (JVal.jnum (JNum.fin stopPrice)) guard = true →
        stopPriceImmediatelyTriggers side stopPrice lastPrice = false →
        create = Except.error e →
        (placeStopLossOrder s symbol openOrders side stopPrice quantity lastPrice guard
            priceTick qtyStep create).1.locks "STOP_MARKET" = false ∧
        (placeStopLossOrder s symbol openOrders side stopPrice quantity lastPrice guard
            priceTick qtyStep create).2 =
          (if isUnknownOrderError e then SubmitResult.benign else SubmitResult.raised e))) ∧
    (∀ (s : CoordState) (symbol : String) (openOrders : List AsterOrder) (side : Side)
        (activationPrice quantity callbackRate : ℚ) (guard : Option OrderGuardOptions)
        (priceTick qtyStep : ℚ) (create : Except ExError AsterOrder),
      (isOperating s "TRAILING_STOP_MARKET" = true →
        placeTrailingStopOrder s symbol openOrders side activationPrice quantity callbackRate
            guard priceTick qtyStep create = (s, SubmitResult.skippedLocked)) ∧
      (∀ o, isOperating s "TRAILING_STOP_MARKET" = false →
        enforceMarkPriceGuard side (JVal.jnum (JNum.fin activationPrice)) guard = true →
        create = Except.ok o →
        (placeTrailingStopOrder s symbol openOrders side activationPrice quantity callbackRate
            guard priceTick qtyStep create).1.pending "TRAILING_STOP_MARKET" =
          some o.orderId ∧
        (placeTrailingStopOrder s symbol openOrders side activationPrice quantity callbackRate
            guard priceTick qtyStep create).1.locks "TRAILING_STOP_MARKET" = true) ∧
      (∀ e, isOperating s "TRAILING_STOP_MARKET" = false →
        enforceMarkPriceGuard side (JVal.jnum (JNum.fin activationPrice)) guard = true →
        create = Except.error e →
        (placeTrailingStopOrder s symbol openOrders side activationPrice quantity callbackRate
            guard priceTick qtyStep create).1.locks "TRAILING_STOP_MARKET" = false ∧
        (placeTrailingStopOrder s symbol openOrders side activationPrice quantity callbackRate
            guard priceTick qtyStep create).2 =
          (if isUnknownOrderError e then SubmitResult.benign else SubmitResult.raised e))) ∧
    (∀ (s : CoordState) (symbol : String) (openOrders : List AsterOrder) (side : Side)
        (quantity : ℚ) (guard : Option OrderGuardOptions) (qtyStep : ℚ)
        (create : Except ExError AsterOrder),
      (isOperating s "MARKET" = true →
        marketClose s symbol openOrders side quantity guard qtyStep create =
          (s, SubmitResult.skippedLocked)) ∧
      (∀ o, isOperating s "MARKET" = false →
        enforceMarkPriceGuard side (guardExpectedPrice guard) guard = true →
        create = Except.ok o →
        (marketClose s symbol openOrders side quantity guard qtyStep
            create).1.pending "MARKET" = some o.orderId ∧
        (marketClose s symbol openOrders side quantity guard qtyStep
            create).1.locks "MARKET" = true) ∧
      (∀ e, isOperating s "MARKET" = false →
        enforceMarkPriceGuard side (guardExpectedPrice guard) guard = true →
        create = Except.error e →
        (marketClose s symbol openOrders side quantity guard qtyStep
            create).1.locks "MARKET" = false ∧
        (marketClose s symbol openOrders side quantity guard qtyStep create).2 =
          (if isUnknownOrderError e then SubmitResult.benign else SubmitResult.raised e))) := by
  refine ⟨?_, ?_, ?_, ?_, ?_⟩
  · intro s symbol openOrders side price amount reduceOnly guard priceTick qtyStep create
    refine ⟨fun hl => by simp [placeOrder, hl], ?_, ?_⟩
    · intro o hl hg hc
      have hred : placeOrder s symbol openOrders side price amount reduceOnly guard priceTick
          qtyStep create = submitWith s openOrders "LIMIT" side
            ⟨symbol, side, "LIMIT", roundQtyDownToStep amount qtyStep,
              some (roundDownToTick price priceTick), none, none, none, reduceOnly, false,
              some "GTX"⟩ create := by
        simp [placeOrder, hl, hg]
      rw [hred]
      have h := (submitWith_spec s openOrders "LIMIT" side
        ⟨symbol, side, "LIMIT", roundQtyDownToStep amount qtyStep,
          some (roundDownToTick price priceTick), none, none, none, reduceOnly, false,
          some "GTX"⟩ create).1 o hc
      exact ⟨h.1, h.2.1⟩
    · intro e hl hg hc
      have hred : placeOrder s symbol openOrders side price amount reduceOnly guard priceTick
          qtyStep create = submitWith s openOrders "LIMIT" side
            ⟨symbol, side, "LIMIT", roundQtyDownToStep amount qtyStep,
              some (roundDownToTick price priceTick), none, none, none, reduceOnly, false,
              some "GTX"⟩ create := by
        simp [placeOrder, hl, hg]
      rw [hred]
      have h := (submitWith_spec s openOrders "LIMIT" side
        ⟨symbol, side, "LIMIT", roundQtyDownToStep amount qtyStep,
          some (roundDownToTick price priceTick), none, none, none, reduceOnly, false,
          some "GTX"⟩ create).2 e hc
      exact ⟨h.1, h.2.2⟩
  · intro s symbol openOrders side amount reduceOnly guard qtyStep create
    refine ⟨fun hl => by simp [placeMarketOrder, hl], ?_, ?_⟩
    · intro o hl hg hc
      have hred : placeMarketOrder s symbol openOrders side amount reduceOnly guard qtyStep
          create = submitWith s openOrders "MARKET" side
            ⟨symbol, side, "MARKET", roundQtyDownToStep amount qtyStep, none, none, none,
              none, reduceOnly, false, none⟩ create := by
        simp [placeMarketOrder, hl, hg]
      rw [hred]
      have h := (submitWith_spec s openOrders "MARKET" side
        ⟨symbol, side, "MARKET", roundQtyDownToStep amount qtyStep, none, none, none,
          none, reduceOnly, false, none⟩ create).1 o hc
      exact ⟨h.1, h.2.1⟩
    · intro e hl hg hc
      have hred : placeMarketOrder s symbol openOrders side amount reduceOnly guard qtyStep
          create = submitWith s openOrders "MARKET" side
            ⟨symbol, side, "MARKET", roundQtyDownToStep amount qtyStep, none, none, none,
              none, reduceOnly, false, none⟩ create := by
        simp [placeMarketOrder, hl, hg]
      rw [hred]
      have h := (submitWith_spec s openOrders "MARKET" side
        ⟨symbol, side, "MARKET", roundQtyDownToStep amount qtyStep, none, none, none,
          none, reduceOnly, false, none⟩ create).2 e hc
      exact ⟨h.1, h.2.2⟩
  · intro s symbol openOrders side stopPrice quantity lastPrice guard priceTick qtyStep create
    refine ⟨fun hl => by simp [placeStopLossOrder, hl], ?_, ?_⟩
    · intro o hl hg hgate hc
      have hred : placeStopLossOrder s symbol openOrders side stopPrice quantity lastPrice
          guard priceTick qtyStep create = submitWith s openOrders "STOP_MARKET" side
            ⟨symbol, side, "STOP_MARKET", roundQtyDownToStep quantity qtyStep, none,
              some (roundDownToTick stopPrice priceTick), none, none, false, true,
              some "GTC"⟩ create := by
        simp [placeStopLossOrder, hl, hg, hgate]
      rw [hred]
      have h := (submitWith_spec s openOrders "STOP_MARKET" side
        ⟨symbol, side, "STOP_MARKET", roundQtyDownToStep quantity qtyStep, none,
          some (roundDownToTick stopPrice priceTick), none, none, false, true,
          some "GTC"⟩ create).1 o hc
      exact ⟨h.1, h.2.1⟩
    · intro e hl hg hgate hc
      have hred : placeStopLossOrder s symbol openOrders side stopPrice quantity lastPrice
          guard priceTick qtyStep create = submitWith s openOrders "STOP_MARKET" side
            ⟨symbol, side, "STOP_MARKET", roundQtyDownToStep quantity qtyStep, none,
              some (roundDownToTick stopPrice priceTick), none, none, false, true,
              some "GTC"⟩ create := by
        simp [placeStopLossOrder, hl, hg, hgate]
      rw [hred]
      have h := (submitWith_spec s openOrders "STOP_MARKET" side
        ⟨symbol, side, "STOP_MARKET", roundQtyDownToStep quantity qtyStep, none,
          some (roundDownToTick stopPrice priceTick), none, none, false, true,
          some "GTC"⟩ create).2 e hc
      exact ⟨h.1, h.2.2⟩
  · intro s symbol openOrders side activationPrice quantity callbackRate guard priceTick
      qtyStep create
    refine ⟨fun hl => by simp [placeTrailingStopOrder, hl], ?_, ?_⟩
    · intro o hl hg hc
      have hred : placeTrailingStopOrder s symbol openOrders side activationPrice quantity
          callbackRate guard priceTick qtyStep create =
            submitWith s openOrders "TRAILING_STOP_MARKET" side
              ⟨symbol, side, "TRAILING_STOP_MARKET", roundQtyDownToStep quantity qtyStep,
                none, none, some (roundDownToTick activationPrice priceTick),
                some callbackRate, true, false, some "GTC"⟩ create := by
        simp [placeTrailingStopOrder, hl, hg]
      rw [hred]
      have h := (submitWith_spec s openOrders "TRAILING_STOP_MARKET" side
        ⟨symbol, side, "TRAILING_STOP_MARKET", roundQtyDownToStep quantity qtyStep,
          none, none, some (roundDownToTick activationPrice priceTick),
          some callbackRate, true, false, some "GTC"⟩ create).1 o hc
      exact ⟨h.1, h.2.1⟩
    · intro e hl hg hc
      have hred : placeTrailingStopOrder s symbol openOrders side activationPrice quantity
          callbackRate guard priceTick qtyStep create =
            submitWith s openOrders "TRAILING_STOP_MARKET" side
              ⟨symbol, side, "TRAILING_STOP_MARKET", roundQtyDownToStep quantity qtyStep,
                none, none, some (roundDownToTick activationPrice priceTick),
                some callbackRate, true, false, some "GTC"⟩ create := by
        simp [placeTrailingStopOrder, hl, hg]
      rw [hred]
      have h := (submitWith_spec s openOrders "TRAILING_STOP_MARKET" side
        ⟨symbol, side, "TRAILING_STOP_MARKET", roundQtyDownToStep quantity qtyStep,
          none, none, some (roundDownToTick activationPrice priceTick),
          some callbackRate, true, false, some "GTC"⟩ create).2 e hc
      exact ⟨h.1, h.2.2⟩
  · intro s symbol openOrders side quantity guard qtyStep create
    refine ⟨fun hl => by simp [marketClose, hl], ?_, ?_⟩
    · intro o hl hg hc
      have hred : marketClose s symbol openOrders side quantity guard qtyStep create =
          submitWith s openOrders "MARKET" side
            ⟨symbol, side, "MARKET", roundQtyDownToStep quantity qtyStep, none, none, none,
              none, true, false, none⟩ create := by
        simp [marketClose, hl, hg]
      rw [hred]
      have h := (submitWith_spec s openOrders "MARKET" side
        ⟨symbol, side, "MARKET", roundQtyDownToStep quantity qtyStep, none, none, none,
          none, true, false, none⟩ create).1 o hc
      exact ⟨h.1, h.2.1⟩
    · intro e hl hg hc
      have hred : marketClose s symbol openOrders side quantity guard qtyStep create =
          submitWith s openOrders "MARKET" side
            ⟨symbol, side, "MARKET", roundQtyDownToStep quantity qtyStep, none, none, none,
              none, true, false, none⟩ create := by
        simp [marketClose, hl, hg]
      rw [hred]
      have h := (submitWith_spec s openOrders "MARKET" side
        ⟨symbol, side, "MARKET", roundQtyDownToStep quantity qtyStep, none, none, none,
          none, true, false, none⟩ create).2 e hc
      exact ⟨h.1, h.2.2⟩

/-- C6, witness: from a fresh (unlocked) state with no guard configured — a
successful limit submission records pending id 7 with the lock held; a market
submission failing with the unknown-order error unlocks and is benign; a
successful SELL stop at 99 against last price 100 records its pending id; a
trailing-stop failure with a generic error re-raises it after unlocking; a
locked state makes `marketClose` return without submitting. -/
theorem submitOps_spec_witness :
    (placeOrder ⟨fun _ => false, fun _ => none, fun _ => none⟩ "S" [] Side.BUY 100 1 false
        none (1 / 10) (1 / 1000)
        (Except.ok ⟨7, "S", "LIMIT", Side.BUY, "NEW", 100, 1, 0, none, false, 0, 0⟩)).1.pending
      "LIMIT" = some 7 ∧
    (placeMarketOrder ⟨fun _ => false, fun _ => none, fun _ => none⟩ "S" [] Side.BUY 1 false
        none (1 / 1000) (Except.error ExError.unknownOrder)).2 = SubmitResult.benign ∧
    (placeStopLossOrder ⟨fun _ => false, fun _ => none, fun _ => none⟩ "S" [] Side.SELL 99 1
        (some 100) none (1 / 10) (1 / 1000)
        (Except.ok ⟨8, "S", "STOP_MARKET", Side.SELL, "NEW", 0, 1, 99, none, false, 0,
          0⟩)).1.locks "STOP_MARKET" = true ∧
    (placeTrailingStopOrder ⟨fun _ => false, fun _ => none, fun _ => none⟩ "S" [] Side.SELL
        110 1 (1 / 5) none (1 / 10) (1 / 1000)
        (Except.error (ExError.other "boom"))).2 = SubmitResult.raised (ExError.other "boom") ∧
    marketClose ⟨fun _ => true, fun _ => none, fun _ => none⟩ "S" [] Side.SELL 1 none
        (1 / 1000) (Except.ok ⟨9, "S", "MARKET", Side.SELL, "NEW", 0, 1, 0, none, true, 0, 0⟩)
      = (⟨fun _ => true, fun _ => none, fun _ => none⟩, SubmitResult.skippedLocked) := by
  refine ⟨?_, ?_, ?_, ?_, ?_⟩
  · exact ((submitOps_spec.1 ⟨fun _ => false, fun _ => none, fun _ => none⟩ "S" [] Side.BUY
      100 1 false none (1 / 10) (1 / 1000) _).2.1
      ⟨7, "S", "LIMIT", Side.BUY, "NEW", 100, 1, 0, none, false, 0, 0⟩ rfl rfl rfl).1
  · have h := (submitOps_spec.2.1 ⟨fun _ => false, fun _ => none, fun _ => none⟩ "S" []
      Side.BUY 1 false none (1 / 1000) _).2.2 ExError.unknownOrder rfl rfl rfl
    rw [h.2]
    simp [isUnknownOrderError]
  · exact ((submitOps_spec.2.2.1 ⟨fun _ => false, fun _ => none, fun _ => none⟩ "S" []
      Side.SELL 99 1 (some 100) none (1 / 10) (1 / 1000) _).2.1
      ⟨8, "S", "STOP_MARKET", Side.SELL, "NEW", 0, 1, 99, none, false, 0, 0⟩ rfl rfl
      (by decide) rfl).2
  · have h := (submitOps_spec.2.2.2.1 ⟨fun _ => false, fun _ => none, fun _ => none⟩ "S" []
      Side.SELL 110 1 (1 / 5) none (1 / 10) (1 / 1000) _).2.2
      (ExError.other "boom") rfl rfl rfl
    rw [h.2]
    simp [isUnknownOrderError]
  · exact (submitOps_spec.2.2.2.2 ⟨fun _ => true, fun _ => none, fun _ => none⟩ "S" []
      Side.SELL 1 none (1 / 1000) _).1 rfl

/-- One-to-one consumption only removes elements: the remainder is a subset
of the input. -/
theorem removeFirstMatch_subset (tolerance : ℚ) (o : AsterOrder) :
    ∀ (rem : List DesiredOrder) (d : DesiredOrder),
      d ∈ removeFirstMatch tolerance o rem → d ∈ rem := by
  intro rem
  induction rem with
  | nil => intro d hd; cases hd
  | cons x xs ih =>
      intro d hd
      unfold removeFirstMatch at hd
      by_cases hm : matchesDesired tolerance o x
      · rw [if_pos hm] at hd
        exact List.mem_cons_of_mem x hd
      · rw [if_neg hm] at hd
        rcases List.mem_cons.mp hd with hdx | hdxs
        · exact hdx ▸ List.mem_cons_self x xs
        · exact List.mem_cons_of_mem x (ih d hdxs)

/-- Folding one-to-one consumption over the kept orders only removes desired
orders, never invents them. -/
theorem foldl_removeFirstMatch_subset (tolerance : ℚ) :
    ∀ (kept : List AsterOrder) (init : List DesiredOrder) (d : DesiredOrder),
      d ∈ kept.foldl (fun rem o => removeFirstMatch tolerance o rem) init → d ∈ init := by
  intro kept
  induction kept with
  | nil => intro init d hd; exact hd
  | cons o os ih =>
      intro init d hd
      exact removeFirstMatch_subset tolerance o init d (ih (removeFirstMatch tolerance o init) d hd)

/-- C7 (spec-modelled).  The order-plan reconciliation keeps an existing
order — it is absent from `toCancel` — iff some desired order of the same
side and reduceOnly flag has a price within tolerance and a matching
quantity, scheduling every other existing order for cancellation; everything
placed comes from the desired set (each desired order consumed at most once
by a kept existing order); and the spec's two concrete examples hold:
existing (BUY, 100, reduceOnly=false, qty 1) with desired (BUY, 100.02,
qty 1) at tolerance 0.05 yields no cancel and no place, while desired price
100.2 yields cancel-existing and place-new. -/
theorem makeOrderPlan_spec :
    (∀ (openOrders : List AsterOrder) (desired : List DesiredOrder) (tolerance : ℚ)
        (o : AsterOrder), o ∈ openOrders →
      (o ∈ (makeOrderPlan openOrders desired tolerance).1 ↔
        ¬ ∃ d ∈ desired, matchesDesired tolerance o d = true)) ∧
    (∀ (openOrders : List AsterOrder) (desired : List DesiredOrder) (tolerance : ℚ)
        (d : DesiredOrder),
      d ∈ (makeOrderPlan openOrders desired tolerance).2 → d ∈ desired) ∧
    makeOrderPlan
        [⟨1, "S", "LIMIT", Side.BUY, "NEW", 100, 1, 0, none, false, 0, 0⟩]
        [⟨Side.BUY, 100 + 2 / 100, 1, false⟩] (5 / 100) = ([], []) ∧
    makeOrderPlan
        [⟨1, "S", "LIMIT", Side.BUY, "NEW", 100, 1, 0, none, false, 0, 0⟩]
        [⟨Side.BUY, 100 + 2 / 10, 1, false⟩] (5 / 100) =
      ([⟨1, "S", "LIMIT", Side.BUY, "NEW", 100, 1, 0, none, false, 0, 0⟩],
        [⟨Side.BUY, 100 + 2 / 10, 1, false⟩]) := by
  refine ⟨?_, ?_, ?_, ?_⟩
  · intro openOrders desired tolerance o ho
    have hfst : (makeOrderPlan openOrders desired tolerance).1 =
        openOrders.filter (fun o => ! desired.any (fun d => matchesDesired tolerance o d)) :=
      rfl
    rw [hfst]
    constructor
    · intro hmem hex
      rcases hex with ⟨d, hd, hmatch⟩
      have hp := (List.mem_filter.mp hmem).2
      simp only [Bool.not_eq_true', List.any_eq_false] at hp
      exact absurd hmatch (by simpa using hp d hd)
    · intro hnot
      refine List.mem_filter.mpr ⟨ho, ?_⟩
      simp only [Bool.not_eq_true', List.any_eq_false]
      intro d hd
      simp only [Bool.not_eq_true]
      by_contra hmatch
      exact hnot ⟨d, hd, by simpa using hmatch⟩
  · intro openOrders desired tolerance d hd
    have hsnd : (makeOrderPlan openOrders desired tolerance).2 =
        (openOrders.filter
            (fun o => desired.any (fun d => matchesDesired tolerance o d))).foldl
          (fun rem o => removeFirstMatch tolerance o rem) desired := rfl
    rw [hsnd] at hd
    exact foldl_removeFirstMatch_subset tolerance _ desired d hd
  · have hmatch : matchesDesired (5 / 100)
        ⟨1, "S", "LIMIT", Side.BUY, "NEW", 100, 1, 0, none, false, 0, 0⟩
        ⟨Side.BUY, 100 + 2 / 100, 1, false⟩ = true := by
      unfold matchesDesired
      norm_num
      refine ⟨rfl, ?_⟩
      rw [abs_of_nonneg (by norm_num : (0 : ℚ) ≤ 1 / 50)]
      norm_num
    simp [makeOrderPlan, List.filter, List.any, removeFirstMatch, hmatch]
  · have hmatch : matchesDesired (5 / 100)
        ⟨1, "S", "LIMIT", Side.BUY, "NEW", 100, 1, 0, none, false, 0, 0⟩
        ⟨Side.BUY, 100 + 2 / 10, 1, false⟩ = false := by
      unfold matchesDesired
      rw [show (100 : ℚ) - (100 + 2 / 10) = -(2 / 10) by ring, abs_neg,
        abs_of_nonneg (by norm_num)]
      norm_num
    simp [makeOrderPlan, List.filter, List.any, removeFirstMatch, hmatch]

/-- C7, witness: the kept-iff characterization applied at the spec's second
example — the existing order appears in `toCancel` iff no desired order
matches it. -/
theorem makeOrderPlan_spec_witness :
    (⟨1, "S", "LIMIT", Side.BUY, "NEW", 100, 1, 0, none, false, 0, 0⟩ : AsterOrder) ∈
        (makeOrderPlan [⟨1, "S", "LIMIT", Side.BUY, "NEW", 100, 1, 0, none, false, 0, 0⟩]
          [⟨Side.BUY, 100 + 2 / 10, 1, false⟩] (5 / 100)).1 ↔
      ¬ ∃ d ∈ [(⟨Side.BUY, 100 + 2 / 10, 1, false⟩ : DesiredOrder)],
          matchesDesired (5 / 100)
            ⟨1, "S", "LIMIT", Side.BUY, "NEW", 100, 1, 0, none, false, 0, 0⟩ d = true :=
  makeOrderPlan_spec.1 _ _ _ _ (by simp)

/-- Rounding down to a positive tick never increases the price. -/
theorem roundDownToTick_le (p t : ℚ) (ht : 0 < t) : roundDownToTick p t ≤ p := by
  unfold roundDownToTick
  calc (⌊p / t⌋ : ℚ) * t ≤ p / t * t :=
        mul_le_mul_of_nonneg_right (Int.floor_le (p / t)) ht.le
    _ = p := div_mul_cancel₀ p (ne_of_gt ht)

/-- Tick multiples are fixed points of tick rounding. -/
theorem roundDownToTick_fixed (p t : ℚ) (ht : t ≠ 0) :
    roundDownToTick (roundDownToTick p t) t = roundDownToTick p t := by
  unfold roundDownToTick
  rw [mul_div_cancel_right₀ _ ht, Int.floor_intCast]

/-- The stepped block's comparison tick `max(1e-9, priceTick)` is positive. -/
theorem stepTick_pos (cfg : TradingConfig) : 0 < stepTick cfg :=
  lt_of_lt_of_le (by norm_num) (le_max_left _ _)

/-- A SELL protective side means a long position, per `trendStopSide`. -/
theorem trendStopSide_sell_dir (position : PositionSnapshot)
    (h : trendStopSide position = Side.SELL) : trendDirection position = Direction.long := by
  unfold trendStopSide at h
  cases hd : trendDirection position with
  | long => rfl
  | short => rw [hd] at h; cases h

/-- A BUY protective side means a short position, per `trendStopSide`. -/
theorem trendStopSide_buy_dir (position : PositionSnapshot)
    (h : trendStopSide position = Side.BUY) : trendDirection position = Direction.short := by
  unfold trendStopSide at h
  cases hd : trendDirection position with
  | long => rw [hd] at h; cases h
  | short => rfl

/-- For a short position, an inactive trailing stop means the price is
strictly above the activation zone. -/
theorem trailingActivated_false_short (cfg : TradingConfig) (position : PositionSnapshot)
    (price : ℚ) (currentTrailing : Option AsterOrder)
    (hdir : trendDirection position = Direction.short)
    (h : trailingActivated cfg position price currentTrailing = false) :
    resolveTrailingActivate cfg position currentTrailing + stepTick cfg < price := by
  unfold trailingActivated at h
  rw [hdir] at h
  exact not_le.mp (of_decide_eq_false h)

/-- A passing stop-vs-last-price sanity check places a SELL stop strictly
below and a BUY stop strictly above the last price. -/
theorem stopGate_false_char (side : Side) (v lp : ℚ)
    (h : stopPriceImmediatelyTriggers side v (some lp) = false) :
    (side = Side.SELL → v < lp) ∧ (side = Side.BUY → lp < v) := by
  have h' : (if side = Side.SELL ∧ v ≥ lp then true
      else if side = Side.BUY ∧ v ≤ lp then true else false) = false := h
  by_cases h1 : side = Side.SELL ∧ v ≥ lp
  · rw [if_pos h1] at h'; cases h'
  · rw [if_neg h1] at h'
    by_cases h2 : side = Side.BUY ∧ v ≤ lp
    · rw [if_pos h2] at h'; cases h'
    · constructor
      · intro hs
        by_contra hlt
        exact h1 ⟨hs, not_lt.mp hlt⟩
      · intro hb
        by_contra hlt
        exact h2 ⟨hb, not_lt.mp hlt⟩

/-- A passing `tryReplaceStop` pre-check places a SELL target strictly below
and a BUY target strictly above the last price. -/
theorem replaceGate_true_char (side : Side) (v lp : ℚ)
    (h : tryReplaceStopGate side v lp = true) :
    (side = Side.SELL → v < lp) ∧ (side = Side.BUY → lp < v) := by
  unfold tryReplaceStopGate at h
  constructor
  · intro hs
    by_contra hlt
    have hd : decide (side = Side.SELL ∧ lp ≤ v) = true :=
      decide_eq_true ⟨hs, not_lt.mp hlt⟩
    rw [hd] at h
    simp at h
  · intro hb
    by_contra hlt
    have hd : decide (side = Side.BUY ∧ v ≤ lp) = true :=
      decide_eq_true ⟨hb, not_lt.mp hlt⟩
    rw [hd] at h
    simp at h

/-- Equation lemma: the SELL clamp sub-step on a resting stop. -/
theorem sellClampAct_some (cfg : TradingConfig) (position : PositionSnapshot) (price : ℚ)
    (currentTrailing : Option AsterOrder) (o : AsterOrder) :
    sellClampAct cfg position price currentTrailing (some o) =
      if o.stopPrice + stepTick cfg ≤ sellClampTarget cfg position price currentTrailing
      then StepAction.replace o (sellClampTarget cfg position price currentTrailing)
      else StepAction.idle := rfl

/-- Equation lemma: the SELL clamp sub-step with no resting stop. -/
theorem sellClampAct_none (cfg : TradingConfig) (position : PositionSnapshot) (price : ℚ)
    (currentTrailing : Option AsterOrder) :
    sellClampAct cfg position price currentTrailing none =
      StepAction.place (sellClampTarget cfg position price currentTrailing) := rfl

/-- Equation lemma: the BUY clamp sub-step on a resting stop. -/
theorem buyClampAct_some (cfg : TradingConfig) (position : PositionSnapshot) (price : ℚ)
    (currentTrailing : Option AsterOrder) (o : AsterOrder) :
    buyClampAct cfg position price currentTrailing (some o) =
      if buyClampTarget cfg position price currentTrailing ≤ o.stopPrice - stepTick cfg
      then StepAction.replace o (buyClampTarget cfg position price currentTrailing)
      else StepAction.idle := rfl

/-- Equation lemma: the BUY clamp sub-step with no resting stop. -/
theorem buyClampAct_none (cfg : TradingConfig) (position : PositionSnapshot) (price : ℚ)
    (currentTrailing : Option AsterOrder) :
    buyClampAct cfg position price currentTrailing none =
      StepAction.place (buyClampTarget cfg position price currentTrailing) := rfl

/-- Equation lemma: the in-range sub-step on a resting stop. -/
theorem normalStepAct_some (cfg : TradingConfig) (position : PositionSnapshot) (price : ℚ)
    (o : AsterOrder) :
    normalStepAct cfg position price (some o) =
      (if (trendStopSide position = Side.SELL ∧
            o.stopPrice + stepTick cfg ≤ lockTargetStop0 cfg position price) ∨
          (trendStopSide position = Side.BUY ∧
            lockTargetStop0 cfg position price ≤ o.stopPrice - stepTick cfg) then
        StepAction.replace o (lockTargetStop0 cfg position price)
      else StepAction.idle) := rfl

/-- Equation lemma: the in-range sub-step with no resting stop. -/
theorem normalStepAct_none (cfg : TradingConfig) (position : PositionSnapshot)
    (price : ℚ) :
    normalStepAct cfg position price none =
      StepAction.place (lockTargetStop0 cfg position price) := rfl

/-- Inversion of the stepped block for a `place` decision: the trailing stop
was inactive, a SELL target never exceeds `activate - tick`, and a BUY target
is at least `activate + tick` and is either exactly that clamp value or a
tick multiple. -/
theorem steppedStopAction_place_char (cfg : TradingConfig) (position : PositionSnapshot)
    (price : ℚ) (currentStop currentTrailing : Option AsterOrder) (target : ℚ)
    (htick : 0 < cfg.priceTick)
    (hact : steppedStopAction cfg position price currentStop currentTrailing =
      StepAction.place target) :
    trailingActivated cfg position price currentTrailing = false ∧
    (trendStopSide position = Side.SELL →
        target ≤ resolveTrailingActivate cfg position currentTrailing - stepTick cfg) ∧
    (trendStopSide position = Side.BUY →
        resolveTrailingActivate cfg position currentTrailing + stepTick cfg ≤ target ∧
          (target = resolveTrailingActivate cfg position currentTrailing + stepTick cfg ∨
            roundDownToTick target cfg.priceTick = target)) := by
  unfold steppedStopAction at hact
  by_cases h1 : trailingActivated cfg position price currentTrailing = true
  · rw [if_pos h1] at hact; cases hact
  · rw [if_neg h1] at hact
    have h1f : trailingActivated cfg position price currentTrailing = false := by
      cases hb : trailingActivated cfg position price currentTrailing with
      | true => exact absurd hb h1
      | false => rfl
    refine ⟨h1f, ?_⟩
    by_cases h2 : ¬ (0 < |position.positionAmt| ∧ 0 < max 0 cfg.profitLockOffsetUsd)
    · rw [if_pos h2] at hact; cases hact
    · rw [if_neg h2] at hact
      by_cases h3 : ¬ (max 0 cfg.profitLockTriggerUsd ≤ profitBasis position price)
      · rw [if_pos h3] at hact; cases hact
      · rw [if_neg h3] at hact
        by_cases h4 : trendStopSide position = Side.SELL ∧
            resolveTrailingActivate cfg position currentTrailing - stepTick cfg ≤
              lockTargetStop0 cfg position price
        · rw [if_pos h4] at hact
          cases currentStop with
          | some o =>
              rw [sellClampAct_some] at hact
              by_cases h5 : o.stopPrice + stepTick cfg ≤
                  sellClampTarget cfg position price currentTrailing
              · rw [if_pos h5] at hact; cases hact
              · rw [if_neg h5] at hact; cases hact
          | none =>
              rw [sellClampAct_none] at hact
              injection hact with htgt
              subst htgt
              constructor
              · intro _
                exact min_le_right _ _
              · intro hb
                rw [h4.1] at hb
                cases hb
        · rw [if_neg h4] at hact
          by_cases h5 : trendStopSide position = Side.BUY ∧
              lockTargetStop0 cfg position price ≤
                resolveTrailingActivate cfg position currentTrailing + stepTick cfg
          · rw [if_pos h5] at hact
            cases currentStop with
            | some o =>
                rw [buyClampAct_some] at hact
                by_cases h6 : buyClampTarget cfg position price currentTrailing ≤
                    o.stopPrice - stepTick cfg
                · rw [if_pos h6] at hact; cases hact
                · rw [if_neg h6] at hact; cases hact
            | none =>
                rw [buyClampAct_none] at hact
                injection hact with htgt
                subst htgt
                constructor
                · intro hs
                  rw [h5.1] at hs
                  cases hs
                · intro _
                  refine ⟨le_max_right _ _, Or.inl ?_⟩
                  unfold buyClampTarget
                  exact max_eq_right h5.2
          · rw [if_neg h5] at hact
            by_cases h6 : (trendStopSide position = Side.SELL ∧
                  lockTargetStop0 cfg position price ≤ price - stepTick cfg) ∨
                (trendStopSide position = Side.BUY ∧
                  price + stepTick cfg ≤ lockTargetStop0 cfg position price)
            · rw [if_pos h6] at hact
              cases currentStop with
              | none =>
                  rw [normalStepAct_none] at hact
                  injection hact with htgt
                  subst htgt
                  constructor
                  · intro hs
                    have hnot : ¬ (resolveTrailingActivate cfg position currentTrailing -
                        stepTick cfg ≤ lockTargetStop0 cfg position price) :=
                      fun hle => h4 ⟨hs, hle⟩
                    exact (not_le.mp hnot).le
                  · intro hb
                    have hnot : ¬ (lockTargetStop0 cfg position price ≤
                        resolveTrailingActivate cfg position currentTrailing +
                          stepTick cfg) :=
                      fun hle => h5 ⟨hb, hle⟩
                    refine ⟨(not_le.mp hnot).le, Or.inr ?_⟩
                    unfold lockTargetStop0
                    exact roundDownToTick_fixed _ _ (ne_of_gt htick)
              | some o =>
                  rw [normalStepAct_some] at hact
                  by_cases h7 : (trendStopSide position = Side.SELL ∧
                        o.stopPrice + stepTick cfg ≤ lockTargetStop0 cfg position price) ∨
                      (trendStopSide position = Side.BUY ∧
                        lockTargetStop0 cfg position price ≤ o.stopPrice - stepTick cfg)
                  · rw [if_pos h7] at hact; cases hact
                  · rw [if_neg h7] at hact; cases hact
            · rw [if_neg h6] at hact; cases hact

/-- Inversion of the stepped block for a `replace` decision: additionally the
replaced order is the resting stop, and the target improves on it by at least
one tick in the protective direction. -/
theorem steppedStopAction_replace_char (cfg : TradingConfig) (position : PositionSnapshot)
    (price : ℚ) (currentStop currentTrailing : Option AsterOrder) (o : AsterOrder)
    (target : ℚ) (htick : 0 < cfg.priceTick)
    (hact : steppedStopAction cfg position price currentStop currentTrailing =
      StepAction.replace o target) :
    trailingActivated cfg position price currentTrailing = false ∧
    currentStop = some o ∧
    (trendStopSide position = Side.SELL →
        target ≤ resolveTrailingActivate cfg position currentTrailing - stepTick cfg) ∧
    (trendStopSide position = Side.BUY →
        resolveTrailingActivate cfg position currentTrailing + stepTick cfg ≤ target ∧
          (target = resolveTrailingActivate cfg position currentTrailing + stepTick cfg ∨
            roundDownToTick target cfg.priceTick = target)) ∧
    (trendStopSide position = Side.SELL → o.stopPrice + stepTick cfg ≤ target) ∧
    (trendStopSide position = Side.BUY → target ≤ o.stopPrice - stepTick cfg) := by
  unfold steppedStopAction at hact
  by_cases h1 : trailingActivated cfg position price currentTrailing = true
  · rw [if_pos h1] at hact; cases hact
  · rw [if_neg h1] at hact
    have h1f : trailingActivated cfg position price currentTrailing = false := by
      cases hb : trailingActivated cfg position price currentTrailing with
      | true => exact absurd hb h1
      | false => rfl
    refine ⟨h1f, ?_⟩
    by_cases h2 : ¬ (0 < |position.positionAmt| ∧ 0 < max 0 cfg.profitLockOffsetUsd)
    · rw [if_pos h2] at hact; cases hact
    · rw [if_neg h2] at hact
      by_cases h3 : ¬ (max 0 cfg.profitLockTriggerUsd ≤ profitBasis position price)
      · rw [if_pos h3] at hact; cases hact
      · rw [if_neg h3] at hact
        by_cases h4 : trendStopSide position = Side.SELL ∧
            resolveTrailingActivate cfg position currentTrailing - stepTick cfg ≤
              lockTargetStop0 cfg position price
        · rw [if_pos h4] at hact
          cases currentStop with
          | some ox =>
              rw [sellClampAct_some] at hact
              by_cases h5 : ox.stopPrice + stepTick cfg ≤
                  sellClampTarget cfg position price currentTrailing
              · rw [if_pos h5] at hact
                injection hact with ho htgt
                subst ho
                subst htgt
                refine ⟨rfl, fun _ => min_le_right _ _, ?_, fun _ => h5, ?_⟩
                · intro hb
                  rw [h4.1] at hb
                  cases hb
                · intro hb
                  rw [h4.1] at hb
                  cases hb
              · rw [if_neg h5] at hact; cases hact
          | none =>
              rw [sellClampAct_none] at hact
              cases hact
        · rw [if_neg h4] at hact
          by_cases h5 : trendStopSide position = Side.BUY ∧
              lockTargetStop0 cfg position price ≤
                resolveTrailingActivate cfg position currentTrailing + stepTick cfg
          · rw [if_pos h5] at hact
            cases currentStop with
            | some ox =>
                rw [buyClampAct_some] at hact
                by_cases h6 : buyClampTarget cfg position price currentTrailing ≤
                    ox.stopPrice - stepTick cfg
                · rw [if_pos h6] at hact
                  injection hact with ho htgt
                  subst ho
                  subst htgt
                  refine ⟨rfl, ?_, ?_, ?_, fun _ => h6⟩
                  · intro hs
                    rw [h5.1] at hs
                    cases hs
                  · intro _
                    refine ⟨le_max_right _ _, Or.inl ?_⟩
                    unfold buyClampTarget
                    exact max_eq_right h5.2
                  · intro hs
                    rw [h5.1] at hs
                    cases hs
                · rw [if_neg h6] at hact; cases hact
            | none =>
                rw [buyClampAct_none] at hact
                cases hact
          · rw [if_neg h5] at hact
            by_cases h6 : (trendStopSide position = Side.SELL ∧
                  lockTargetStop0 cfg position price ≤ price - stepTick cfg) ∨
                (trendStopSide position = Side.BUY ∧
                  price + stepTick cfg ≤ lockTargetStop0 cfg position price)
            · rw [if_pos h6] at hact
              cases currentStop with
              | none =>
                  rw [normalStepAct_none] at hact
                  cases hact
              | some ox =>
                  rw [normalStepAct_some] at hact
                  by_cases h7 : (trendStopSide position = Side.SELL ∧
                        ox.stopPrice + stepTick cfg ≤ lockTargetStop0 cfg position price) ∨
                      (trendStopSide position = Side.BUY ∧
                        lockTargetStop0 cfg position price ≤ ox.stopPrice - stepTick cfg)
                  · rw [if_pos h7] at hact
                    injection hact with ho htgt
                    subst ho
                    subst htgt
                    have hnot4 : trendStopSide position = Side.SELL →
                        lockTargetStop0 cfg position price <
                          resolveTrailingActivate cfg position currentTrailing -
                            stepTick cfg := by
                      intro hs
                      exact not_le.mp (fun hle => h4 ⟨hs, hle⟩)
                    have hnot5 : trendStopSide position = Side.BUY →
                        resolveTrailingActivate cfg position currentTrailing +
                            stepTick cfg < lockTargetStop0 cfg position price := by
                      intro hb
                      exact not_le.mp (fun hle => h5 ⟨hb, hle⟩)
                    refine ⟨rfl, fun hs => (hnot4 hs).le, ?_, ?_, ?_⟩
                    · intro hb
                      refine ⟨(hnot5 hb).le, Or.inr ?_⟩
                      unfold lockTargetStop0
                      exact roundDownToTick_fixed _ _ (ne_of_gt htick)
                    · intro hs
                      rcases h7 with ⟨_, himp⟩ | ⟨hb, _⟩
                      · exact himp
                      · rw [hs] at hb
                        cases hb
                    · intro hb
                      rcases h7 with ⟨hs, _⟩ | ⟨_, himp⟩
                      · rw [hb] at hs
                        cases hs
                      · exact himp
                  · rw [if_neg h7] at hact; cases hact
            · rw [if_neg h6] at hact; cases hact

/-- C4.  Every stop price the stepped profit-lock submits (place or replace):
a SELL stop is strictly below the current last price and strictly below the
trailing-stop's activation price; a BUY stop is strictly above both; and a
replace is only ever proposed for the resting stop when the new target
improves on it by at least one tick (`max(1e-9, priceTick)`) in the
protective direction. -/
theorem steppedProfitLock_safety (cfg : TradingConfig) (position : PositionSnapshot)
    (price : ℚ) (currentStop currentTrailing : Option AsterOrder)
    (htick : 0 < cfg.priceTick) (sp target : ℚ) (isRep : Bool)
    (h : steppedStopSubmission cfg position price currentStop currentTrailing =
      some (sp, target, isRep)) :
    (trendStopSide position = Side.SELL →
        sp < price ∧ sp < resolveTrailingActivate cfg position currentTrailing) ∧
    (trendStopSide position = Side.BUY →
        price < sp ∧ resolveTrailingActivate cfg position currentTrailing < sp) ∧
    (isRep = true → ∃ o, currentStop = some o ∧
        (trendStopSide position = Side.SELL → o.stopPrice + stepTick cfg ≤ target) ∧
        (trendStopSide position = Side.BUY → target ≤ o.stopPrice - stepTick cfg)) := by
  unfold steppedStopSubmission at h
  rcases hact : steppedStopAction cfg position price currentStop currentTrailing
    with _ | t | ⟨o, t⟩
  · rw [hact] at h; cases h
  · rw [hact] at h
    have h2 : (if stopPriceImmediatelyTriggers (trendStopSide position) t (some price) then
        (none : Option (ℚ × ℚ × Bool))
      else some (roundDownToTick t cfg.priceTick, t, false)) = some (sp, target, isRep) := h
    by_cases hg : stopPriceImmediatelyTriggers (trendStopSide position) t (some price) = true
    · rw [if_pos hg] at h2; cases h2
    · have hgf : stopPriceImmediatelyTriggers (trendStopSide position) t (some price) =
          false := by
        cases hb : stopPriceImmediatelyTriggers (trendStopSide position) t (some price) with
        | true => exact absurd hb hg
        | false => rfl
      rw [if_neg hg] at h2
      simp only [Option.some.injEq, Prod.mk.injEq] at h2
      obtain ⟨hsp, htgt, hrep⟩ := h2
      obtain ⟨hstill, hSell, hBuy⟩ :=
        steppedStopAction_place_char cfg position price currentStop currentTrailing t
          htick hact
      obtain ⟨hgSell, hgBuy⟩ := stopGate_false_char _ _ _ hgf
      refine ⟨?_, ?_, ?_⟩
      · intro hs
        have hle : sp ≤ t := hsp ▸ roundDownToTick_le t cfg.priceTick htick
        exact ⟨lt_of_le_of_lt hle (hgSell hs),
          lt_of_le_of_lt (hle.trans (hSell hs)) (by linarith [stepTick_pos cfg])⟩
      · intro hb
        rcases (hBuy hb).2 with hclamp | hfix
        · have hshort := trendStopSide_buy_dir position hb
          have habove := trailingActivated_false_short cfg position price currentTrailing
            hshort hstill
          have hcontra := hgBuy hb
          rw [hclamp] at hcontra
          exact absurd hcontra (not_lt.mpr habove.le)
        · have hspt : sp = t := by rw [← hsp, hfix]
          rw [hspt]
          exact ⟨hgBuy hb, lt_of_lt_of_le (by linarith [stepTick_pos cfg]) (hBuy hb).1⟩
      · intro habs
        rw [← hrep] at habs
        cases habs
  · rw [hact] at h
    have h2 : (if tryReplaceStopGate (trendStopSide position) t price then
        (if stopPriceImmediatelyTriggers (trendStopSide position) t (some price) then
          (none : Option (ℚ × ℚ × Bool))
        else some (roundDownToTick t cfg.priceTick, t, true))
      else none) = some (sp, target, isRep) := h
    by_cases hgr : tryReplaceStopGate (trendStopSide position) t price = true
    · rw [if_pos hgr] at h2
      by_cases hg : stopPriceImmediatelyTriggers (trendStopSide position) t (some price) =
          true
      · rw [if_pos hg] at h2; cases h2
      · have hgf : stopPriceImmediatelyTriggers (trendStopSide position) t (some price) =
            false := by
          cases hb : stopPriceImmediatelyTriggers (trendStopSide position) t (some price)
            with
          | true => exact absurd hb hg
          | false => rfl
        rw [if_neg hg] at h2
        simp only [Option.some.injEq, Prod.mk.injEq] at h2
        obtain ⟨hsp, htgt, hrep⟩ := h2
        obtain ⟨hstill, hsome, hSell, hBuy, himpSell, himpBuy⟩ :=
          steppedStopAction_replace_char cfg position price currentStop currentTrailing o t
            htick hact
        obtain ⟨hgSell, hgBuy⟩ := stopGate_false_char _ _ _ hgf
        refine ⟨?_, ?_, ?_⟩
        · intro hs
          have hle : sp ≤ t := hsp ▸ roundDownToTick_le t cfg.priceTick htick
          exact ⟨lt_of_le_of_lt hle (hgSell hs),
            lt_of_le_of_lt (hle.trans (hSell hs)) (by linarith [stepTick_pos cfg])⟩
        · intro hb
          rcases (hBuy hb).2 with hclamp | hfix
          · have hshort := trendStopSide_buy_dir position hb
            have habove := trailingActivated_false_short cfg position price currentTrailing
              hshort hstill
            have hcontra := hgBuy hb
            rw [hclamp] at hcontra
            exact absurd hcontra (not_lt.mpr habove.le)
          · have hspt : sp = t := by rw [← hsp, hfix]
            rw [hspt]
            exact ⟨hgBuy hb, lt_of_lt_of_le (by linarith [stepTick_pos cfg]) (hBuy hb).1⟩
        · intro _
          exact ⟨o, hsome, fun hs => htgt ▸ himpSell hs, fun hb => htgt ▸ himpBuy hb⟩
    · rw [if_neg hgr] at h2
      cases h2

/-- C4, witness: a long position (1 unit, entry 100) at price 105 with profit
basis 5 over trigger 2 and step 1 walks the stop to 104 — the submission is a
replace of the resting stop at 99 by 104, strictly below both the price 105
and the trailing activation 110, improving on 99 by well over a tick. -/
theorem steppedProfitLock_safety_witness :
    steppedStopSubmission sampleLockCfg sampleLockPos 105 (some sampleRestingStop) none =
      some (104, 104, true) ∧
    (104 : ℚ) < 105 ∧
    (104 : ℚ) < resolveTrailingActivate sampleLockCfg sampleLockPos none ∧
    (∃ o, (some sampleRestingStop : Option AsterOrder) = some o ∧
      (trendStopSide sampleLockPos = Side.SELL →
        o.stopPrice + stepTick sampleLockCfg ≤ 104) ∧
      (trendStopSide sampleLockPos = Side.BUY →
        (104 : ℚ) ≤ o.stopPrice - stepTick sampleLockCfg)) := by
  have hdir : trendDirection sampleLockPos = Direction.long := by
    unfold trendDirection sampleLockPos
    norm_num
  have hside : trendStopSide sampleLockPos = Side.SELL := by
    unfold trendStopSide
    rw [hdir]
  have habs : |sampleLockPos.positionAmt| = 1 := abs_one
  have hT : stepTick sampleLockCfg = 1 / 10 :=
    max_eq_right (by show (1 : ℚ) / 1000000000 ≤ 1 / 10; norm_num)
  have hA : resolveTrailingActivate sampleLockCfg sampleLockPos none = 110 := by
    show calcTrailingActivationPrice sampleLockPos.entryPrice |sampleLockPos.positionAmt|
        (trendDirection sampleLockPos) sampleLockCfg.trailingProfit = 110
    rw [hdir, habs]
    show (100 : ℚ) + 10 / 1 = 110
    norm_num
  have hactf : trailingActivated sampleLockCfg sampleLockPos 105 none = false := by
    unfold trailingActivated
    rw [hdir]
    show decide (resolveTrailingActivate sampleLockCfg sampleLockPos none -
        stepTick sampleLockCfg ≤ 105) = false
    rw [hA, hT, decide_eq_false_iff_not]
    norm_num
  have hpnl : trendPnl sampleLockPos 105 = 5 := by
    unfold trendPnl
    rw [hdir, habs]
    show ((105 : ℚ) - 100) * 1 = 5
    norm_num
  have hbasis : profitBasis sampleLockPos 105 = 5 := by
    unfold profitBasis
    rw [hpnl]
    show max (5 : ℚ) 0 = 5
    exact max_eq_left (by norm_num)
  have hmaxTrig : max (0 : ℚ) sampleLockCfg.profitLockTriggerUsd = 2 :=
    max_eq_right (by show (0 : ℚ) ≤ 2; norm_num)
  have hmaxOff : max (0 : ℚ) sampleLockCfg.profitLockOffsetUsd = 1 :=
    max_eq_right (by show (0 : ℚ) ≤ 1; norm_num)
  have hsteps : lockSteps sampleLockCfg sampleLockPos 105 = 4 := by
    unfold lockSteps
    rw [hbasis, hmaxTrig, hmaxOff]
    norm_num
  have hraw : rawLockTarget sampleLockCfg sampleLockPos 105 = 104 := by
    unfold rawLockTarget
    rw [hdir, hsteps, habs, hmaxOff]
    show (100 : ℚ) + ((4 : ℤ) : ℚ) * (1 / 1) = 104
    norm_num
  have hround : roundDownToTick 104 sampleLockCfg.priceTick = 104 := by
    unfold roundDownToTick
    show (⌊(104 : ℚ) / (1 / 10)⌋ : ℚ) * (1 / 10) = 104
    norm_num
  have ht0 : lockTargetStop0 sampleLockCfg sampleLockPos 105 = 104 := by
    unfold lockTargetStop0
    rw [hraw]
    exact hround
  have hc1 : ¬ (trailingActivated sampleLockCfg sampleLockPos 105 none = true) := by
    rw [hactf]
    exact Bool.false_ne_true
  have hc2 : ¬ ¬ (0 < |sampleLockPos.positionAmt| ∧
      0 < max 0 sampleLockCfg.profitLockOffsetUsd) := by
    refine not_not_intro ⟨?_, ?_⟩
    · rw [habs]; norm_num
    · rw [hmaxOff]; norm_num
  have hc3 : ¬ ¬ (max 0 sampleLockCfg.profitLockTriggerUsd ≤
      profitBasis sampleLockPos 105) := by
    refine not_not_intro ?_
    rw [hmaxTrig, hbasis]
    norm_num
  have hc4 : ¬ (trendStopSide sampleLockPos = Side.SELL ∧
      resolveTrailingActivate sampleLockCfg sampleLockPos none - stepTick sampleLockCfg ≤
        lockTargetStop0 sampleLockCfg sampleLockPos 105) := by
    rintro ⟨-, hle⟩
    rw [hA, hT, ht0] at hle
    norm_num at hle
  have hc5 : ¬ (trendStopSide sampleLockPos = Side.BUY ∧
      lockTargetStop0 sampleLockCfg sampleLockPos 105 ≤
        resolveTrailingActivate sampleLockCfg sampleLockPos none + stepTick sampleLockCfg) := by
    rintro ⟨hb, -⟩
    rw [hside] at hb
    cases hb
  have hc6 : (trendStopSide sampleLockPos = Side.SELL ∧
        lockTargetStop0 sampleLockCfg sampleLockPos 105 ≤ 105 - stepTick sampleLockCfg) ∨
      (trendStopSide sampleLockPos = Side.BUY ∧
        105 + stepTick sampleLockCfg ≤ lockTargetStop0 sampleLockCfg sampleLockPos 105) := by
    refine Or.inl ⟨hside, ?_⟩
    rw [ht0, hT]
    norm_num
  have himp : (trendStopSide sampleLockPos = Side.SELL ∧
        sampleRestingStop.stopPrice + stepTick sampleLockCfg ≤
          lockTargetStop0 sampleLockCfg sampleLockPos 105) ∨
      (trendStopSide sampleLockPos = Side.BUY ∧
        lockTargetStop0 sampleLockCfg sampleLockPos 105 ≤
          sampleRestingStop.stopPrice - stepTick sampleLockCfg) := by
    refine Or.inl ⟨hside, ?_⟩
    rw [hT, ht0]
    show (99 : ℚ) + 1 / 10 ≤ 104
    norm_num
  have hactres : steppedStopAction sampleLockCfg sampleLockPos 105 (some sampleRestingStop)
      none = StepAction.replace sampleRestingStop 104 := by
    unfold steppedStopAction
    rw [if_neg hc1, if_neg hc2, if_neg hc3, if_neg hc4, if_neg hc5, if_pos hc6,
      normalStepAct_some, if_pos himp, ht0]
  have hgate : tryReplaceStopGate (trendStopSide sampleLockPos) 104 105 = true := by
    rw [hside]
    unfold tryReplaceStopGate
    have d1 : decide (Side.SELL = Side.SELL ∧ (105 : ℚ) ≤ 104) = false :=
      decide_eq_false (by rintro ⟨-, hle⟩; norm_num at hle)
    have d2 : decide (Side.SELL = Side.BUY ∧ (104 : ℚ) ≤ 105) = false :=
      decide_eq_false (by rintro ⟨hc, -⟩; cases hc)
    rw [d1, d2]
    rfl
  have hstopg : stopPriceImmediatelyTriggers (trendStopSide sampleLockPos) 104
      (some 105) = false := by
    rw [hside]
    show (if Side.SELL = Side.SELL ∧ (104 : ℚ) ≥ 105 then true
      else if Side.SELL = Side.BUY ∧ (104 : ℚ) ≤ 105 then true else false) = false
    rw [if_neg ?gneg1, if_neg ?gneg2]
    case gneg1 =>
      rintro ⟨-, hge⟩
      norm_num at hge
    case gneg2 =>
      rintro ⟨hc, -⟩
      cases hc
  have hsub : steppedStopSubmission sampleLockCfg sampleLockPos 105
      (some sampleRestingStop) none = some (104, 104, true) := by
    unfold steppedStopSubmission
    rw [hactres]
    show (if tryReplaceStopGate (trendStopSide sampleLockPos) 104 105 then
        (if stopPriceImmediatelyTriggers (trendStopSide sampleLockPos) 104 (some 105) then
          (none : Option (ℚ × ℚ × Bool))
        else some (roundDownToTick 104 sampleLockCfg.priceTick, 104, true))
      else none) = some (104, 104, true)
    rw [if_pos hgate, if_neg (by rw [hstopg]; exact Bool.false_ne_true), hround]
  have hsafe := steppedProfitLock_safety sampleLockCfg sampleLockPos 105
    (some sampleRestingStop) none (by show (0 : ℚ) < 1 / 10; norm_num) 104 104 true hsub
  exact ⟨hsub, (hsafe.1 hside).1, (hsafe.1 hside).2, hsafe.2.2 rfl⟩

end PerpBot
